import Mathlib

/-!
# Verification of the mindstone control system against its specification

This file gives a shallow embedding, in Lean 4, of the parts of the
mindstone Python package that the specification's testable claims are
about:

* `_graph.py` — directed-graph primitives over a mapping from node key to
  successor set;
* `_utils.py` — dotted-path lookup (`get_nested`) and `inner_merge`;
* `connection.py` — the msgpack wire format, `encode_transaction`,
  `decode_request` / `decode_response` and their field validation;
* `worker.py` — request dispatch (`_process_request_items`) and the
  receive boundary (`_on_receive`);
* `gatenetwork.py` — the gate-network resolution engine (`_resolve_all`),
  `add_conditional_edge`, and the epoch ceiling.

Modelling conventions:

* Python values that can travel through msgpack are modelled by the
  mutually inductive type `PyVal` (with `PyList` / `PyDict` for its
  sequence and mapping payloads).  A Python `str` is modelled by the list
  of its UTF-8 bytes (`PyStr`); for the ASCII strings appearing in the
  program, code points and bytes coincide (`pystr`).  Mappings are
  string-keyed, which is the universe `msgpack-python`'s loader accepts
  (its default `strict_map_key=True` rejects non-string keys).
* Python floats are carried as their 64-bit IEEE-754 bit pattern
  (`PyVal.float bits`); no arithmetic on floats occurs in the verified
  code paths, the bits are only stored and transported.  Equality of
  `PyVal` is structural; Python's numeric cross-type equalities
  (`1 == 1.0`, `True == 1`) and the irreflexivity of `nan == nan` are
  not modelled, and no verified claim depends on them.
* Raising an exception is modelled with `Except PyErr`; each `PyErr`
  constructor corresponds to one Python exception class.
* Python dictionaries are insertion ordered; they are modelled as
  association lists without duplicate keys, where updating an existing
  key keeps its position and a new key is appended — exactly CPython's
  visible ordering semantics.  Python sets are modelled as lists in
  insertion order with duplicate-free insertion; no verified claim
  depends on a set's iteration order.
-/

namespace Mindstone

/-- The bytes of a Python `str` (its UTF-8 encoding).  For ASCII strings —
the only string literals the program contains — bytes and code points
coincide. -/
abbrev PyStr : Type := List Nat

/-- Convenience: the byte list of an ASCII Lean string literal. -/
def pystr (s : String) : PyStr := s.data.map Char.toNat

/-- The single-quote byte `0x27`, used when reconstructing formatted
Python error messages that quote a value. -/
def sq : PyStr := [39]

/-- Python exception classes raised by the modelled code.  The worker's
receive boundary catches exactly `RuntimeError`, `RuntimeWarning` and
`ValueError` (`worker.py`, `_on_receive`). -/
inductive PyErr where
  | keyError
  | typeError
  | indexError
  | attributeError (attr : PyStr)
  | valueError (msg : PyStr)
  | runtimeError (msg : PyStr)
  | runtimeWarning (msg : PyStr)
  | notImplementedError (msg : PyStr)
  | unpackError
  deriving DecidableEq, Repr

/-- Decidable equality of `Except` results, for concrete evaluation. -/
instance {ε α : Type} [DecidableEq ε] [DecidableEq α] :
    DecidableEq (Except ε α) := fun a b =>
  match a, b with
  | .error e, .error f =>
      match decEq e f with
      | isTrue h => isTrue (h ▸ rfl)
      | isFalse h => isFalse (fun c => h (Except.error.inj c))
  | .error _, .ok _ => isFalse (fun c => Except.noConfusion c)
  | .ok _, .error _ => isFalse (fun c => Except.noConfusion c)
  | .ok x, .ok y =>
      match decEq x y with
      | isTrue h => isTrue (h ▸ rfl)
      | isFalse h => isFalse (fun c => h (Except.ok.inj c))

mutual
/-- A msgpack-transportable Python value. -/
inductive PyVal where
  | none
  | bool (b : Bool)
  | int (n : Int)
  | float (bits : Nat)
  | str (s : PyStr)
  | list (xs : PyList)
  | dict (xs : PyDict)
  deriving DecidableEq, Repr
/-- Payload of a Python list value. -/
inductive PyList where
  | nil
  | cons (v : PyVal) (tl : PyList)
  deriving DecidableEq, Repr
/-- Payload of a (string-keyed, insertion-ordered) Python dict value. -/
inductive PyDict where
  | nil
  | cons (k : PyStr) (v : PyVal) (tl : PyDict)
  deriving DecidableEq, Repr
end

namespace PyList

/-- `len` of a Python list. -/
def length : PyList → Nat
  | .nil => 0
  | .cons _ tl => tl.length + 1

/-- The underlying Lean list of elements. -/
def toList : PyList → List PyVal
  | .nil => []
  | .cons v tl => v :: tl.toList

/-- Build a `PyList` from a Lean list. -/
def ofList : List PyVal → PyList
  | [] => .nil
  | v :: tl => .cons v (ofList tl)

/-- Python `x in xs` for a list, with a structural `==`. -/
def contains (xs : PyList) (v : PyVal) : Bool :=
  match xs with
  | .nil => false
  | .cons w tl => w = v || tl.contains v

end PyList

namespace PyDict

/-- `dict.get(k)`: the value of the first (the unique) binding of `k`. -/
def lookup : PyDict → PyStr → Option PyVal
  | .nil, _ => Option.none
  | .cons k v tl, key => if k = key then some v else tl.lookup key

/-- The keys, in insertion order. -/
def keys : PyDict → List PyStr
  | .nil => []
  | .cons k _ tl => k :: tl.keys

/-- Number of entries. -/
def length : PyDict → Nat
  | .nil => 0
  | .cons _ _ tl => tl.length + 1

/-- `d[k] = v`: update the binding in place if `k` is a key, else append. -/
def set : PyDict → PyStr → PyVal → PyDict
  | .nil, key, v => .cons key v .nil
  | .cons k w tl, key, v =>
      if k = key then .cons k v tl else .cons k w (tl.set key v)

/-- `d.update(other)`: `set` every binding of `other` in order. -/
def update : PyDict → PyDict → PyDict
  | d, .nil => d
  | d, .cons k v tl => (d.set k v).update tl

end PyDict

/-- Discriminator used to model `isinstance(x, dict)`. -/
def PyVal.isDict : PyVal → Bool
  | .dict _ => true
  | _ => false

/-- Discriminator used to model `isinstance(x, list)`. -/
def PyVal.isList : PyVal → Bool
  | .list _ => true
  | _ => false

/-- Discriminator used to model `isinstance(x, float)` (a Python `int` is
not an instance of `float`). -/
def PyVal.isFloat : PyVal → Bool
  | .float _ => true
  | _ => false

/-- Discriminator used to model `isinstance(x, str)`. -/
def PyVal.isStr : PyVal → Bool
  | .str _ => true
  | _ => false

/-- Python hashability of a modelled value: lists and dicts are
unhashable, everything else here is hashable. -/
def PyVal.hashable : PyVal → Bool
  | .list _ => false
  | .dict _ => false
  | _ => true

/-- Python truthiness of a modelled value. -/
def PyVal.truthy : PyVal → Bool
  | .none => false
  | .bool b => b
  | .int n => n ≠ 0
  | .float bits => bits ≠ 0 ∧ bits ≠ 2 ^ 63  -- +0.0 and -0.0 are falsy
  | .str s => s ≠ []
  | .list xs => xs ≠ .nil
  | .dict xs => xs ≠ .nil

/-- Decimal digits of a natural number, as ASCII bytes. -/
def natRepr (n : Nat) : PyStr := (Nat.toDigits 10 n).map Char.toNat

/-- `str(x)` for the values the worker interpolates into error messages.
Only the `str` case is relied on by a verified claim; the container and
float renderings are best-effort stand-ins for CPython's formatting. -/
def PyVal.pyFormat : PyVal → PyStr
  | .str s => s
  | .bool true => pystr "True"
  | .bool false => pystr "False"
  | .none => pystr "None"
  | .int n => if n < 0 then 45 :: natRepr n.natAbs else natRepr n.toNat
  | _ => pystr "<value>"

/-! ## Generic association-list dictionaries

Model of a Python `dict` whose keys are an arbitrary (hashable) Lean
type; used for the worker's registries and the gate network's
resolution-local mappings.  Same ordering discipline as `PyDict`. -/

/-- `d.get(k)` on an association list: first (unique) binding. -/
def dictLookup {κ α : Type} [DecidableEq κ] : List (κ × α) → κ → Option α
  | [], _ => Option.none
  | (k, v) :: tl, key => if k = key then some v else dictLookup tl key

/-- `d[k] = v`: update in place if present, else append. -/
def dictSet {κ α : Type} [DecidableEq κ] : List (κ × α) → κ → α → List (κ × α)
  | [], key, v => [(key, v)]
  | (k, w) :: tl, key, v =>
      if k = key then (k, v) :: tl else (k, w) :: dictSet tl key v

/-- `d.update(other)`. -/
def dictUpdate {κ α : Type} [DecidableEq κ]
    (d : List (κ × α)) (other : List (κ × α)) : List (κ × α) :=
  other.foldl (fun acc kv => dictSet acc kv.1 kv.2) d

/-- `d.pop(k, default)` / `del d[k]`: drop the binding of `k`.  On a
duplicate-free list this is exactly CPython's deletion. -/
def dictRemove {κ α : Type} [DecidableEq κ] (d : List (κ × α)) (key : κ) :
    List (κ × α) :=
  d.filter (fun kv => kv.1 ≠ key)

/-- The key list, in order. -/
def dictKeys {κ α : Type} (d : List (κ × α)) : List κ := d.map Prod.fst

end Mindstone

namespace Mindstone

/-! ## `_utils.py` — dotted-path lookup and `inner_merge` -/

/-- `keys.split(delimiter)` for a one-byte delimiter: CPython's `str.split`,
which always returns at least one (possibly empty) segment. -/
def splitByte (delim : Nat) : PyStr → List PyStr
  | [] => [[]]
  | b :: rest =>
      let r := splitByte delim rest
      if b = delim then [] :: r
      else
        match r with
        | h :: t => (b :: h) :: t
        | [] => [[b]]

/-- Is `p` a contiguous substring of `s` (Python `p in s` on strings)? -/
def substringOf (p s : PyStr) : Bool :=
  (List.range (s.length + 1)).any (fun i => (s.drop i).take p.length = p)

/-- Python `key in mapping` where `key` is a `str`: mapping → key test,
list → element equality, string → substring; on `None`, numbers and
booleans the `in` operator raises `TypeError`. -/
def pyContainsStr (key : PyStr) : PyVal → Except PyErr Bool
  | .dict m => .ok (m.keys.contains key)
  | .list xs => .ok (xs.contains (.str key))
  | .str s => .ok (substringOf key s)
  | .none => .error .typeError
  | .bool _ => .error .typeError
  | .int _ => .error .typeError
  | .float _ => .error .typeError

/-- Python `mapping[key]` where `key` is a `str`: only a mapping yields a
value; `str` and `list` subscripts require integers (`TypeError`).  In
`_get_nested_util` this runs only after a successful `in` test, so the
mapping case cannot miss. -/
def pyGetItemStr (v : PyVal) (key : PyStr) : Except PyErr PyVal :=
  match v with
  | .dict m =>
      match m.lookup key with
      | some w => .ok w
      | Option.none => .error .keyError
  | _ => .error .typeError

/-- `_utils._get_nested_util(route, mapping)`.  `route.pop(0)` on an empty
route would raise `IndexError`; the call sites never pass an empty route. -/
def get_nested_util : List PyStr → PyVal → Except PyErr PyVal
  | [], _ => .error .indexError
  | key :: rest, mapping =>
      if mapping = .none then .ok .none
      else do
        let c ← pyContainsStr key mapping
        if ¬ c then .ok .none
        else do
          let m' ← pyGetItemStr mapping key
          if rest.isEmpty then .ok m' else get_nested_util rest m'

/-- `_utils.get_nested(keys, mapping)` with the default `"."` delimiter. -/
def get_nested (keys : PyStr) (mapping : PyVal) : Except PyErr PyVal :=
  get_nested_util (splitByte 46 keys) mapping

/-- `_utils.inner_merge(to_update, key, mapping)` specialised to an
association-list dictionary whose values are themselves association-list
dictionaries (the only shape the verified call sites produce, so the
`isinstance(..., dict)` test of the source is true whenever the key is
present). -/
def inner_merge {κ κ' α : Type} [DecidableEq κ] [DecidableEq κ']
    (to_update : List (κ × List (κ' × α))) (key : κ)
    (mapping : List (κ' × α)) : List (κ × List (κ' × α)) :=
  match dictLookup to_update key with
  | some old => dictSet to_update key (dictUpdate old mapping)
  | Option.none => dictSet to_update key mapping

/-- `inner_merge` at `PyDict`-valued entries (used for the worker's
feedback mapping). -/
def innerMergePD (to_update : List (PyStr × PyVal)) (key : PyStr)
    (mapping : PyDict) : List (PyStr × PyVal) :=
  match dictLookup to_update key with
  | some (.dict old) => dictSet to_update key (.dict (old.update mapping))
  | _ => dictSet to_update key (.dict mapping)

/-! ## `_graph.py` — directed-graph primitives

A graph is a Python dict from node key to the set of successor keys
(`_graph.py` module docstring).  Sets are duplicate-free lists. -/

/-- The node keys of a graph; `String` models the hashable tags used
throughout the package. -/
abbrev Graph : Type := List (String × List String)

/-- `set.add`: insert if absent. -/
def setAdd (s : List String) (x : String) : List String :=
  if x ∈ s then s else s ++ [x]

/-- `_graph.add_node(graph, key, container)`: insert or overwrite. -/
def add_node (graph : Graph) (key : String) (container : List String := []) :
    Graph :=
  dictSet graph key container

/-- `_graph.remove_node(graph, key)`: delete the node if present, then
prune `key` from every remaining successor set. -/
def remove_node (graph : Graph) (key : String) : Graph :=
  if (dictLookup graph key).isSome then
    (dictRemove graph key).map (fun kv => (kv.1, kv.2.filter (· ≠ key)))
  else graph

/-- `_graph.add_edge(graph, from_key, to_key)`: a self-loop raises
`ValueError`; `graph[from_key]` raises `KeyError` when the source node is
absent; otherwise insert into the successor set. -/
def add_edge (graph : Graph) (from_key to_key : String) :
    Except PyErr Graph :=
  if from_key = to_key then
    .error (.valueError (pystr "A node cannot be connected to itself"))
  else
    match dictLookup graph from_key with
    | some s => .ok (dictSet graph from_key (setAdd s to_key))
    | Option.none => .error .keyError

/-- `_graph.get_in_neighbors(graph, key)`: the nodes whose successor set
contains `key`, as a set (modelled in node insertion order). -/
def get_in_neighbors (graph : Graph) (key : String) : List String :=
  (graph.filter (fun kv => key ∈ kv.2)).map Prod.fst

end Mindstone

namespace Mindstone

/-! ## `connection.py` — msgpack wire format

`encode_transaction` is `msgpack.dumps` on a dict; `_decode_transaction`
starts with `msgpack.loads`.  The codec below models `msgpack-python`
(default settings) on the value universe of `PyVal`: nil, booleans,
64-bit-range integers, float64, str, array and map, each packed in its
shortest form, exactly as the reference packer chooses.  The `bin`,
`ext` and `float32` families are never produced when packing this
universe and are left out of the model (`decV` rejects them). -/

/-- The `k` bytes of `n % 256 ^ k`, big endian. -/
def natBE : Nat → Nat → List Nat
  | 0, _ => []
  | k + 1, n => n / 256 ^ k :: natBE k (n % 256 ^ k)

/-- Read `k` big-endian bytes into an accumulator. -/
def readBE : Nat → Nat → List Nat → Option (Nat × List Nat)
  | 0, acc, bs => some (acc, bs)
  | _ + 1, _, [] => Option.none
  | k + 1, acc, b :: bs => readBE k (acc * 256 + b) bs

/-- Read exactly `n` raw bytes. -/
def readN (n : Nat) (bs : List Nat) : Option (List Nat × List Nat) :=
  if n ≤ bs.length then some (bs.take n, bs.drop n) else Option.none

/-- Two's-complement reading: a `range`-sized unsigned value as a signed
integer. -/
def signed (range m : Nat) : Int :=
  if m < range / 2 then (m : Int) else (m : Int) - (range : Int)

/-- msgpack packing of a Python `int`: shortest of fixint,
uint8/16/32/64, int8/16/32/64; out-of-range integers make the packer
raise (modelled as `Option.none`). -/
def encInt (n : Int) : Option (List Nat) :=
  if 0 ≤ n then
    if n.toNat < 0x80 then some [n.toNat]
    else if n.toNat < 0x100 then some [0xcc, n.toNat]
    else if n.toNat < 0x10000 then some (0xcd :: natBE 2 n.toNat)
    else if n.toNat < 0x100000000 then some (0xce :: natBE 4 n.toNat)
    else if n.toNat < 0x10000000000000000 then some (0xcf :: natBE 8 n.toNat)
    else Option.none
  else
    if -0x20 ≤ n then some [(n + 0x100).toNat]
    else if -0x80 ≤ n then some [0xd0, (n + 0x100).toNat]
    else if -0x8000 ≤ n then some (0xd1 :: natBE 2 (n + 0x10000).toNat)
    else if -0x80000000 ≤ n then
      some (0xd2 :: natBE 4 (n + 0x100000000).toNat)
    else if -0x8000000000000000 ≤ n then
      some (0xd3 :: natBE 8 (n + 0x10000000000000000).toNat)
    else Option.none

/-- msgpack packing of a `str` body of byte length `len`: fixstr, str8,
str16 or str32 header followed by the raw bytes. -/
def encStr (s : PyStr) : Option (List Nat) :=
  if s.length < 0x20 then some ((0xa0 + s.length) :: s)
  else if s.length < 0x100 then some (0xd9 :: s.length :: s)
  else if s.length < 0x10000 then some (0xda :: natBE 2 s.length ++ s)
  else if s.length < 0x100000000 then some (0xdb :: natBE 4 s.length ++ s)
  else Option.none

/-- msgpack array header for `n` elements. -/
def arrHeader (n : Nat) : Option (List Nat) :=
  if n < 0x10 then some [0x90 + n]
  else if n < 0x10000 then some (0xdc :: natBE 2 n)
  else if n < 0x100000000 then some (0xdd :: natBE 4 n)
  else Option.none

/-- msgpack map header for `n` pairs. -/
def mapHeader (n : Nat) : Option (List Nat) :=
  if n < 0x10 then some [0x80 + n]
  else if n < 0x10000 then some (0xde :: natBE 2 n)
  else if n < 0x100000000 then some (0xdf :: natBE 4 n)
  else Option.none

mutual
/-- msgpack packing of a value (`msgpack.dumps`). -/
def encV : PyVal → Option (List Nat)
  | .none => some [0xc0]
  | .bool false => some [0xc2]
  | .bool true => some [0xc3]
  | .int n => encInt n
  | .float bits =>
      if bits < 0x10000000000000000 then some (0xcb :: natBE 8 bits)
      else Option.none
  | .str s => encStr s
  | .list xs =>
      match arrHeader xs.length, encL xs with
      | some h, some b => some (h ++ b)
      | _, _ => Option.none
  | .dict xs =>
      match mapHeader xs.length, encD xs with
      | some h, some b => some (h ++ b)
      | _, _ => Option.none
/-- Packed concatenation of the elements of an array. -/
def encL : PyList → Option (List Nat)
  | .nil => some []
  | .cons v tl =>
      match encV v, encL tl with
      | some a, some b => some (a ++ b)
      | _, _ => Option.none
/-- Packed concatenation of the key/value pairs of a map. -/
def encD : PyDict → Option (List Nat)
  | .nil => some []
  | .cons k v tl =>
      match encStr k, encV v, encD tl with
      | some ks, some a, some b => some (ks ++ a ++ b)
      | _, _, _ => Option.none
end

/-- Read one byte. -/
def readByte : List Nat → Option (Nat × List Nat)
  | [] => Option.none
  | b :: r => some (b, r)

/-- Feed a parse result (value plus remaining bytes) to a continuation. -/
def optPair {α β : Type} : Option (α × List Nat) → (α → List Nat → Option β) → Option β
  | some (a, r), f => f a r
  | Option.none, _ => Option.none

/-- Continue only when an unpacked map key is a string (`strict_map_key`). -/
def strKey {β : Type} : PyVal → (PyStr → Option β) → Option β
  | .str k, f => f k
  | _, _ => Option.none

mutual
/-- msgpack unpacking of one value, fuelled (the fuel only bounds the
recursion; `loads` supplies enough for any input).  The `bin`, `ext` and
`float32` families are not produced by packing this value universe and
fall to the final failure case. -/
def decV : Nat → List Nat → Option (PyVal × List Nat)
  | 0, _ => Option.none
  | _ + 1, [] => Option.none
  | fuel + 1, b :: bs =>
    if b < 0x80 then some (.int b, bs)
    else if b < 0x90 then
      optPair (decD fuel (b - 0x80) bs) (fun d rest => some (.dict d, rest))
    else if b < 0xa0 then
      optPair (decL fuel (b - 0x90) bs) (fun l rest => some (.list l, rest))
    else if b < 0xc0 then
      optPair (readN (b - 0xa0) bs) (fun s rest => some (.str s, rest))
    else if b = 0xc0 then some (.none, bs)
    else if b = 0xc2 then some (.bool false, bs)
    else if b = 0xc3 then some (.bool true, bs)
    else if b = 0xcb then
      optPair (readBE 8 0 bs) (fun m rest => some (.float m, rest))
    else if b = 0xcc then
      optPair (readByte bs) (fun c rest => some (.int c, rest))
    else if b = 0xcd then
      optPair (readBE 2 0 bs) (fun m rest => some (.int m, rest))
    else if b = 0xce then
      optPair (readBE 4 0 bs) (fun m rest => some (.int m, rest))
    else if b = 0xcf then
      optPair (readBE 8 0 bs) (fun m rest => some (.int m, rest))
    else if b = 0xd0 then
      optPair (readByte bs) (fun c rest => some (.int (signed 0x100 c), rest))
    else if b = 0xd1 then
      optPair (readBE 2 0 bs) (fun m rest => some (.int (signed 0x10000 m), rest))
    else if b = 0xd2 then
      optPair (readBE 4 0 bs)
        (fun m rest => some (.int (signed 0x100000000 m), rest))
    else if b = 0xd3 then
      optPair (readBE 8 0 bs)
        (fun m rest => some (.int (signed 0x10000000000000000 m), rest))
    else if b = 0xd9 then
      optPair (readByte bs) (fun n rest =>
        optPair (readN n rest) (fun s rest2 => some (.str s, rest2)))
    else if b = 0xda then
      optPair (readBE 2 0 bs) (fun n rest =>
        optPair (readN n rest) (fun s rest2 => some (.str s, rest2)))
    else if b = 0xdb then
      optPair (readBE 4 0 bs) (fun n rest =>
        optPair (readN n rest) (fun s rest2 => some (.str s, rest2)))
    else if b = 0xdc then
      optPair (readBE 2 0 bs) (fun n rest =>
        optPair (decL fuel n rest) (fun l rest2 => some (.list l, rest2)))
    else if b = 0xdd then
      optPair (readBE 4 0 bs) (fun n rest =>
        optPair (decL fuel n rest) (fun l rest2 => some (.list l, rest2)))
    else if b = 0xde then
      optPair (readBE 2 0 bs) (fun n rest =>
        optPair (decD fuel n rest) (fun d rest2 => some (.dict d, rest2)))
    else if b = 0xdf then
      optPair (readBE 4 0 bs) (fun n rest =>
        optPair (decD fuel n rest) (fun d rest2 => some (.dict d, rest2)))
    else if 0xe0 ≤ b ∧ b ≤ 0xff then some (.int ((b : Int) - 0x100), bs)
    else Option.none
/-- Unpack `n` consecutive array elements. -/
def decL : Nat → Nat → List Nat → Option (PyList × List Nat)
  | _, 0, bs => some (.nil, bs)
  | 0, _ + 1, _ => Option.none
  | fuel + 1, n + 1, bs =>
      optPair (decV fuel bs) (fun v bs2 =>
        optPair (decL fuel n bs2) (fun tl rest => some (.cons v tl, rest)))
/-- Unpack `n` consecutive map pairs (string keys only; a non-string key
makes `msgpack-python` raise, modelled by `strKey`). -/
def decD : Nat → Nat → List Nat → Option (PyDict × List Nat)
  | _, 0, bs => some (.nil, bs)
  | 0, _ + 1, _ => Option.none
  | fuel + 1, n + 1, bs =>
      optPair (decV fuel bs) (fun kv bs2 => strKey kv (fun k =>
        optPair (decV fuel bs2) (fun v bs3 =>
          optPair (decD fuel n bs3) (fun tl rest =>
            some (.cons k v tl, rest)))))
end

/-- `msgpack.loads`: unpack one value and require the whole payload to be
consumed (`ExtraData` otherwise); any unpacking failure raises.  The fuel
`4 * length + 1` dominates the unpacker's recursion on every input that
parses (see `costV_lt_encV_length`). -/
def loads (bs : List Nat) : Except PyErr PyVal :=
  match decV (4 * bs.length + 1) bs with
  | some (v, []) => .ok v
  | some (_, _ :: _) => .error .unpackError
  | Option.none => .error .unpackError

/-- `connection.encode_transaction(to_encode)`: `msgpack.dumps` of (a
shallow copy of) the mapping — the copy is invisible to the result. -/
def encode_transaction (to_encode : PyVal) : Option (List Nat) :=
  encV to_encode

mutual
/-- Fuel needed by `decV` to unpack this value's encoding. -/
def costV : PyVal → Nat
  | .list xs => 1 + costL xs
  | .dict xs => 1 + costD xs
  | _ => 1
/-- Fuel needed by `decL` for these elements. -/
def costL : PyList → Nat
  | .nil => 0
  | .cons v tl => 1 + costV v + costL tl
/-- Fuel needed by `decD` for these pairs. -/
def costD : PyDict → Nat
  | .nil => 0
  | .cons _ v tl => 2 + costV v + costD tl
end

end Mindstone

namespace Mindstone

/-! ## `connection.py` — envelope records and validation

`Request` and `Response` are `@dataclass`es.  A dataclass field with a
declared default keeps that default as a class-level attribute; a field
without a default has **no** class-level attribute, so
`getattr(datacls, field)` raises `AttributeError` for it.  `FieldSpec`
records, per field: the name, the `isinstance` check against the
annotated type, and the class-level attribute (`Option.none` models its
absence). -/

/-- One annotated dataclass field, as `_get_unsatisfied_fields` sees it. -/
structure FieldSpec where
  name : PyStr
  check : PyVal → Bool
  classAttr : Option PyVal

/-- The annotated fields of `Request`, in declaration order:
`sent_time: float`, `items: list`; neither has a default. -/
def requestFields : List FieldSpec :=
  [⟨pystr "sent_time", PyVal.isFloat, Option.none⟩,
   ⟨pystr "items", PyVal.isList, Option.none⟩]

/-- The annotated fields of `Response`, in declaration order:
`received_time: float`, `sent_time: float`, `feedback: dict = None`,
`error: str = None`. -/
def responseFields : List FieldSpec :=
  [⟨pystr "received_time", PyVal.isFloat, Option.none⟩,
   ⟨pystr "sent_time", PyVal.isFloat, Option.none⟩,
   ⟨pystr "feedback", PyVal.isDict, some PyVal.none⟩,
   ⟨pystr "error", PyVal.isStr, some PyVal.none⟩]

/-- `connection._get_unsatisfied_fields(datacls, mapping)`: for each
annotated field in declaration order, the field is collected when
`not isinstance(mapping.get(field, None), field_type)` and
`getattr(datacls, field) is not None`; evaluating `getattr` on a field
with no class-level attribute (any field without a default) raises
`AttributeError`.  The Python source collects into a `set`; the model
keeps declaration order, which only affects the ordering inside the
`ValueError` message. -/
def get_unsatisfied_fields : List FieldSpec → PyDict → Except PyErr (List PyStr)
  | [], _ => .ok []
  | f :: fs, m =>
      if f.check ((m.lookup f.name).getD PyVal.none) then
        get_unsatisfied_fields fs m
      else
        match f.classAttr with
        | Option.none => .error (.attributeError f.name)
        | some d =>
            if d ≠ PyVal.none then do
              let rest ← get_unsatisfied_fields fs m
              .ok (f.name :: rest)
            else get_unsatisfied_fields fs m

/-- The record decoded from a `Request` payload. -/
structure Request where
  sent_time : PyVal
  items : PyVal
  deriving DecidableEq, Repr

/-- The record decoded from a `Response` payload; `feedback` and `error`
hold the dataclass default `None` when absent. -/
structure Response where
  received_time : PyVal
  sent_time : PyVal
  feedback : PyVal
  error : PyVal
  deriving DecidableEq, Repr

/-- The mapping form of a `Request` (what `ClientABC.send_request`
builds and `encode_transaction` packs). -/
def Request.toDict (r : Request) : PyVal :=
  .dict (.cons (pystr "sent_time") r.sent_time
    (.cons (pystr "items") r.items .nil))

/-- The mapping form of a `Response`, every field bound (the worker's
`feedback_to_send` always carries `error`, and `None` stands for an
absent value). -/
def Response.toDict (r : Response) : PyVal :=
  .dict (.cons (pystr "received_time") r.received_time
    (.cons (pystr "sent_time") r.sent_time
      (.cons (pystr "feedback") r.feedback
        (.cons (pystr "error") r.error .nil))))

/-- `Request(**decoded)`: every key must name a field and both required
fields must be bound, else the call raises `TypeError`. -/
def mkRequest (m : PyDict) : Except PyErr Request :=
  if m.keys.all (fun k => k == pystr "sent_time" || k == pystr "items") then
    match m.lookup (pystr "sent_time"), m.lookup (pystr "items") with
    | some st, some it => .ok ⟨st, it⟩
    | _, _ => .error .typeError
  else .error .typeError

/-- `Response(**decoded)`: unknown keys raise `TypeError`; `feedback`
and `error` fall back to their declared default `None`. -/
def mkResponse (m : PyDict) : Except PyErr Response :=
  if m.keys.all (fun k => k == pystr "received_time" ||
      k == pystr "sent_time" || k == pystr "feedback" ||
      k == pystr "error") then
    match m.lookup (pystr "received_time"), m.lookup (pystr "sent_time") with
    | some rt, some st =>
        .ok ⟨rt, st, (m.lookup (pystr "feedback")).getD PyVal.none,
          (m.lookup (pystr "error")).getD PyVal.none⟩
    | _, _ => .error .typeError
  else .error .typeError

/-- `", ".join(...)`. -/
def joinComma : List PyStr → PyStr
  | [] => []
  | [s] => s
  | s :: rest => s ++ pystr ", " ++ joinComma rest

/-- The `ValueError` message of `_decode_transaction`. -/
def unsatisfiedMsg (unsat : List PyStr) : PyStr :=
  pystr "Received does not satisfy the following fields: " ++ joinComma unsat

/-- `connection._decode_transaction(datacls, to_decode)`: the
`is_dataclass` guards hold for `Request`/`Response`; `msgpack.loads`
decodes the payload, `mapping.get` on a non-mapping raises
`AttributeError`, the unsatisfied-field set drives the `ValueError`,
and finally `datacls(**decoded)` builds the record. -/
def decode_transaction {α : Type} (fields : List FieldSpec)
    (construct : PyDict → Except PyErr α) (to_decode : List Nat) :
    Except PyErr α := do
  let decoded ← loads to_decode
  match decoded with
  | .dict m => do
      let unsat ← get_unsatisfied_fields fields m
      if unsat.isEmpty then construct m
      else .error (.valueError (unsatisfiedMsg unsat))
  | _ => .error (.attributeError (pystr "get"))

/-- `connection.decode_request`. -/
def decode_request (to_decode : List Nat) : Except PyErr Request :=
  decode_transaction requestFields mkRequest to_decode

/-- `connection.decode_response`. -/
def decode_response (to_decode : List Nat) : Except PyErr Response :=
  decode_transaction responseFields mkResponse to_decode

/-- A well-formed `Request` record: fields bound at their declared
types (claim C2's hypothesis). -/
def Request.wellFormed (r : Request) : Prop :=
  r.sent_time.isFloat = true ∧ r.items.isList = true

/-- A well-formed `Response` record: required fields at their declared
types, the defaultable fields at their declared types or absent. -/
def Response.wellFormed (r : Response) : Prop :=
  r.received_time.isFloat = true ∧ r.sent_time.isFloat = true ∧
  (r.feedback.isDict = true ∨ r.feedback = PyVal.none) ∧
  (r.error.isStr = true ∨ r.error = PyVal.none)

end Mindstone

namespace Mindstone

/-! ## `worker.py` — request dispatch and the receive boundary

The registries a worker owns (`platform_types`, a platform's
`component_types`, the live components, the routines) are modelled as
parameters and state; hardware component behaviour is abstract: a
component exposes named operations, an optional `read`, and `cleanup`,
each an `Except`-valued computation. -/

/-- A live component: `getattr`-reachable operations (callable with a
keyword mapping), the optional `read` capability, and `cleanup`. -/
structure Component where
  ops : List (PyStr × (PyDict → Except PyErr PyVal))
  readF : Option (Except PyErr PyVal)
  cleanupF : Except PyErr Unit

/-- A registered component type: the constructor's required keyword
arguments (after `remove("self")`) and the constructor itself (whose
own errors, e.g. `TypeError` on unexpected keywords, it models). -/
structure CompSpec where
  reqArgs : List PyStr
  make : PyDict → Except PyErr Component

/-- A platform: its supported `component_types` and its dict of live
components (`PlatformABC` is itself a `dict`); component keys are
arbitrary hashable values. -/
structure Platform where
  component_types : List (PyStr × CompSpec)
  comps : List (PyVal × Component)

/-- The module-level `platform_types` registry: alias to the fresh
(component-free) platform instance `platform_types[alias]()` creates. -/
abbrev PlatformTypes : Type := List (PyStr × Platform)

/-- The worker's mutable state: the optional platform and the routine
registry `key -> (executor, operation, kwargs, interval)`. -/
structure WorkerState where
  platform : Option Platform
  routines : List (PyVal × (PyVal × PyVal × PyVal × PyVal))

/-- The errors the receive boundary catches:
`except (RuntimeError, RuntimeWarning, ValueError)`. -/
def PyErr.isCaught : PyErr → Bool
  | .runtimeError _ => true
  | .runtimeWarning _ => true
  | .valueError _ => true
  | _ => false

/-- The surfaced error text `"{}: {}".format(e.__class__.__name__, str(e))`
(only caught kinds are ever surfaced). -/
def PyErr.errorString : PyErr → PyStr
  | .runtimeError msg => pystr "RuntimeError: " ++ msg
  | .runtimeWarning msg => pystr "RuntimeWarning: " ++ msg
  | .valueError msg => pystr "ValueError: " ++ msg
  | .keyError => pystr "KeyError"
  | .typeError => pystr "TypeError"
  | .indexError => pystr "IndexError"
  | .attributeError a => pystr "AttributeError: " ++ a
  | .notImplementedError msg => pystr "NotImplementedError: " ++ msg
  | .unpackError => pystr "UnpackError"

/-- The handler slots of the fixed `method_handlers` table. -/
inductive HKind where
  | addComponent
  | addRoutine
  | addPlatform
  | removeComponent
  | removeRoutine
  | removePlatform
  | executeComponent
  | getObservations
  | getComponents
  | getRoutines
  deriving DecidableEq, Repr

/-- `Worker.method_handlers`, keys in source order. -/
def method_handlers : List (PyStr × List (PyStr × HKind)) :=
  [(pystr "add",
     [(pystr "component", .addComponent), (pystr "routine", .addRoutine),
      (pystr "platform", .addPlatform)]),
   (pystr "remove",
     [(pystr "component", .removeComponent), (pystr "routine", .removeRoutine),
      (pystr "platform", .removePlatform)]),
   (pystr "execute", [(pystr "component", .executeComponent)]),
   (pystr "get",
     [(pystr "observations", .getObservations),
      (pystr "components", .getComponents),
      (pystr "routines", .getRoutines)])]

/-- `_error_messages["component_not_found"].format(key)`. -/
def componentNotFoundMsg (key : PyVal) : PyStr :=
  pystr "Component " ++ sq ++ key.pyFormat ++ sq ++ pystr " could not be found."

/-- The unknown-method `RuntimeError` text, naming the valid method set
in table order. -/
def invalidMethodMsg (method : PyVal) : PyStr :=
  pystr "Received method " ++ sq ++ method.pyFormat ++ sq ++
    pystr " is invalid. Try: " ++ joinComma (method_handlers.map Prod.fst)

/-- `PlatformABC.add_component`'s unsupported-type `RuntimeError` text. -/
def typeNotSupportedMsg (t : PyVal) (avail : List PyStr) : PyStr :=
  pystr "Component type " ++ sq ++ t.pyFormat ++ sq ++
    pystr " is not supported. Try: " ++ joinComma avail

/-- `PlatformABC.add_component`'s missing-required-setup `RuntimeError`
text (the Python side joins a set; the model keeps declaration order). -/
def setupUnsatisfiedMsg (key : PyVal) (req : List PyStr) : PyStr :=
  pystr "Component setup for " ++ sq ++ key.pyFormat ++ sq ++
    pystr " does not satisfy all the required fields (" ++
    joinComma req ++ pystr ")."

/-- Binding `handler(**kwargs)`: every kwarg must name a parameter,
else the call raises `TypeError`. -/
def kwOnly (m : PyDict) (allowed : List PyStr) : Bool :=
  m.keys.all (fun k => allowed.any (fun a => a == k))

/-- Hashability filter for `pySetOf` over list elements. -/
def pySetOfList : List PyVal → Except PyErr (List PyVal)
  | [] => .ok []
  | v :: rest =>
      if v.hashable then do
        let tl ← pySetOfList rest
        .ok (v :: tl)
      else .error .typeError

/-- `set(v)`: the members of an iterable, each of which must be
hashable; iterating a string yields its characters, a mapping its keys.
(The model keeps order and duplicates; only membership is consumed.) -/
def pySetOf : PyVal → Except PyErr (List PyVal)
  | .list xs => pySetOfList xs.toList
  | .str s => .ok (s.map (fun b => .str [b]))
  | .dict m => .ok (m.keys.map .str)
  | _ => .error .typeError

/-- The observation mapping `{tag: component.read() for tag, component
in platform.items() if hasattr(component, "read") and tag in
to_read_from}` (`flt = Option.none` means every tag is selected).  A
selected readable tag must be a string to appear in a `PyVal` mapping;
CPython would build the entry and only choke when the reply is decoded
by the strict unpacker — no verified claim touches that corner. -/
def obsEntries : List (PyVal × Component) → Option (List PyVal) →
    Except PyErr PyDict
  | [], _ => .ok .nil
  | (tag, comp) :: rest, flt =>
      if comp.readF.isSome &&
          (match flt with
           | some sel => sel.any (fun x => x == tag)
           | Option.none => true) then
        match tag with
        | .str ts => do
            let v ← comp.readF.getD (.ok PyVal.none)
            let tl ← obsEntries rest flt
            .ok (.cons ts v tl)
        | _ => .error .typeError
      else obsEntries rest flt

/-- The tail of `PlatformABC.add_component` after the replace-removal:
unsupported type and missing-required-setup checks, then construction. -/
def addComponentChecked (st : WorkerState)
    (p : Platform) (k t : PyVal) (sd : PyDict) :
    WorkerState × Except PyErr (Option PyVal) :=
  match t with
  | .list _ => (st, .error .typeError)
  | .dict _ => (st, .error .typeError)
  | .str ts =>
      match dictLookup p.component_types ts with
      | Option.none =>
          (st, .error (.runtimeError
            (typeNotSupportedMsg t (p.component_types.map Prod.fst))))
      | some spec =>
          if ¬ (spec.reqArgs.all (fun a => sd.keys.any (fun x => x == a))) then
            (st, .error (.runtimeError (setupUnsatisfiedMsg k spec.reqArgs)))
          else
            match spec.make sd with
            | .error e => (st, .error e)
            | .ok comp =>
                let p2 : Platform := { p with comps := dictSet p.comps k comp }
                ({ st with platform := some p2 }, .ok Option.none)
  | _ =>
      (st, .error (.runtimeError
        (typeNotSupportedMsg t (p.component_types.map Prod.fst))))

/-- One `method_handlers` slot applied to its keyword mapping; returns
the (possibly mutated) state together with the handler's result — a
raising handler keeps the mutations made before the raise, exactly as
the Python objects would. -/
def call_handler (pt : PlatformTypes) (st : WorkerState) (hk : HKind)
    (kw : PyDict) : WorkerState × Except PyErr (Option PyVal) :=
  match hk with
  | .addPlatform =>
      if ¬ (kwOnly kw [pystr "type"]) then (st, .error .typeError)
      else
        match kw.lookup (pystr "type") with
        | Option.none => (st, .error .typeError)
        | some t =>
            match t with
            | .str ts =>
                match dictLookup pt ts with
                | some p => ({ st with platform := some p }, .ok Option.none)
                | Option.none => (st, .error .keyError)
            | .list _ => (st, .error .typeError)
            | .dict _ => (st, .error .typeError)
            | _ => (st, .error .keyError)
  | .removePlatform =>
      if ¬ (kwOnly kw []) then (st, .error .typeError)
      else ({ st with platform := Option.none }, .ok Option.none)
  | .addRoutine =>
      if ¬ (kwOnly kw [pystr "key", pystr "interval", pystr "executor",
          pystr "operation", pystr "kwargs"]) then (st, .error .typeError)
      else
        match kw.lookup (pystr "key"), kw.lookup (pystr "interval"),
            kw.lookup (pystr "executor"), kw.lookup (pystr "operation"),
            kw.lookup (pystr "kwargs") with
        | some k, some i, some ex, some op, some kws =>
            match st.platform with
            | Option.none => (st, .error .typeError)
            | some p =>
                if ¬ ex.hashable then (st, .error .typeError)
                else if ¬ (p.comps.any (fun kv => kv.1 == ex)) then
                  (st, .error (.runtimeError (componentNotFoundMsg ex)))
                else if ¬ k.hashable then (st, .error .typeError)
                else
                  ({ st with routines := dictSet st.routines k (ex, op, kws, i) },
                    .ok Option.none)
        | _, _, _, _, _ => (st, .error .typeError)
  | .removeRoutine =>
      if ¬ (kwOnly kw [pystr "key"]) then (st, .error .typeError)
      else
        match kw.lookup (pystr "key") with
        | Option.none => (st, .error .typeError)
        | some k =>
            if ¬ k.hashable then (st, .error .typeError)
            else ({ st with routines := dictRemove st.routines k }, .ok Option.none)
  | .addComponent =>
      if ¬ (kwOnly kw [pystr "key", pystr "type", pystr "setup"]) then
        (st, .error .typeError)
      else
        match kw.lookup (pystr "key"), kw.lookup (pystr "type") with
        | some k, some t =>
            match st.platform with
            | Option.none => (st, .error (.attributeError (pystr "add_component")))
            | some p =>
                match (if (kw.lookup (pystr "setup")).getD PyVal.none = PyVal.none
                    then PyVal.dict .nil
                    else (kw.lookup (pystr "setup")).getD PyVal.none) with
                | .dict sd =>
                    if ¬ k.hashable then (st, .error .typeError)
                    else
                      match dictLookup p.comps k with
                      | some old =>
                          match old.cleanupF with
                          | .error e => (st, .error e)
                          | .ok _ =>
                              let p2 : Platform :=
                                { p with comps := dictRemove p.comps k }
                              addComponentChecked
                                { st with platform := some p2 } p2 k t sd
                      | Option.none => addComponentChecked st p k t sd
                | _ => (st, .error .typeError)
        | _, _ => (st, .error .typeError)
  | .removeComponent =>
      if ¬ (kwOnly kw [pystr "key"]) then (st, .error .typeError)
      else
        match kw.lookup (pystr "key") with
        | Option.none => (st, .error .typeError)
        | some k =>
            match st.platform with
            | Option.none =>
                (st, .error (.attributeError (pystr "remove_component")))
            | some p =>
                if ¬ k.hashable then (st, .error .typeError)
                else
                  match dictLookup p.comps k with
                  | some old =>
                      match old.cleanupF with
                      | .error e => (st, .error e)
                      | .ok _ =>
                          let p2 : Platform :=
                            { p with comps := dictRemove p.comps k }
                          ({ st with platform := some p2 }, .ok Option.none)
                  | Option.none => (st, .ok Option.none)
  | .executeComponent =>
      if ¬ (kwOnly kw [pystr "key", pystr "operation", pystr "kwargs"]) then
        (st, .error .typeError)
      else
        match kw.lookup (pystr "key"), kw.lookup (pystr "operation") with
        | some k, some op =>
            match st.platform with
            | Option.none => (st, .error .typeError)
            | some p =>
                if ¬ k.hashable then (st, .error .typeError)
                else
                  match dictLookup p.comps k with
                  | Option.none =>
                      (st, .error (.runtimeError (componentNotFoundMsg k)))
                  | some comp =>
                      match op with
                      | .str os =>
                          match dictLookup comp.ops os with
                          | Option.none => (st, .error (.attributeError os))
                          | some f =>
                              match (if (kw.lookup (pystr "kwargs")).getD PyVal.none
                                    = PyVal.none
                                  then PyVal.dict .nil
                                  else (kw.lookup (pystr "kwargs")).getD PyVal.none) with
                              | .dict kd =>
                                  match f kd with
                                  | .error e => (st, .error e)
                                  | .ok _ => (st, .ok Option.none)
                              | _ => (st, .error .typeError)
                      | _ => (st, .error .typeError)
        | _, _ => (st, .error .typeError)
  | .getObservations =>
      if ¬ (kwOnly kw [pystr "selected"]) then (st, .error .typeError)
      else
        if ((kw.lookup (pystr "selected")).getD PyVal.none).truthy then
          match pySetOf ((kw.lookup (pystr "selected")).getD PyVal.none) with
          | .error e => (st, .error e)
          | .ok sel =>
              match st.platform with
              | Option.none => (st, .error (.attributeError (pystr "items")))
              | some p =>
                  match obsEntries p.comps (some sel) with
                  | .error e => (st, .error e)
                  | .ok d => (st, .ok (some (.dict d)))
        else
          match st.platform with
          | Option.none => (st, .error (.attributeError (pystr "keys")))
          | some p =>
              match obsEntries p.comps Option.none with
              | .error e => (st, .error e)
              | .ok d => (st, .ok (some (.dict d)))
  | .getComponents =>
      if ¬ (kwOnly kw []) then (st, .error .typeError)
      else
        match st.platform with
        | Option.none => (st, .error .typeError)
        | some p =>
            (st, .ok (some (.list (PyList.ofList (p.comps.map Prod.fst)))))
  | .getRoutines =>
      if ¬ (kwOnly kw []) then (st, .error .typeError)
      else (st, .ok (some (.list (PyList.ofList (st.routines.map Prod.fst)))))

/-- Python iteration over the `items` value of a request, as
`for method, resource, kwargs in items` sees it. -/
def iterItems : PyVal → Except PyErr (List PyVal)
  | .list xs => .ok xs.toList
  | .str s => .ok (s.map (fun b => .str [b]))
  | .dict m => .ok (m.keys.map .str)
  | _ => .error .typeError

/-- Unpacking one item into `(method, resource, kwargs)`: a sequence of
another length raises `ValueError`, a non-iterable raises `TypeError`. -/
def unpack3 : PyVal → Except PyErr (PyVal × PyVal × PyVal)
  | .list xs =>
      match xs.toList with
      | [a, b, c] => .ok (a, b, c)
      | l =>
          if l.length < 3 then
            .error (.valueError (pystr "not enough values to unpack (expected 3, got "
              ++ natRepr l.length ++ pystr ")"))
          else .error (.valueError (pystr "too many values to unpack (expected 3)"))
  | .str s =>
      match s with
      | [a, b, c] => .ok (.str [a], .str [b], .str [c])
      | l =>
          if l.length < 3 then
            .error (.valueError (pystr "not enough values to unpack (expected 3, got "
              ++ natRepr l.length ++ pystr ")"))
          else .error (.valueError (pystr "too many values to unpack (expected 3)"))
  | .dict m =>
      match m.keys with
      | [a, b, c] => .ok (.str a, .str b, .str c)
      | l =>
          if l.length < 3 then
            .error (.valueError (pystr "not enough values to unpack (expected 3, got "
              ++ natRepr l.length ++ pystr ")"))
          else .error (.valueError (pystr "too many values to unpack (expected 3)"))
  | _ => .error .typeError

/-- `_utils.inner_merge` on a `PyDict`-valued feedback mapping. -/
def inner_merge_pv (to_update : PyDict) (key : PyStr) (mapping : PyDict) :
    PyDict :=
  match to_update.lookup key with
  | some (.dict old) => to_update.set key (.dict (old.update mapping))
  | some _ => to_update.set key (.dict mapping)
  | Option.none => to_update.set key (.dict mapping)

/-- Handling of one unpacked request item up to its handler call:
display `kwargs.items()` (an `AttributeError` on a non-mapping); reject
an unknown method with the `RuntimeError` naming the valid set; index
the resource sub-table (`KeyError` when unknown); call the handler.
Returns the mutated state and, on success, the method and resource
names with the handler's (possibly `None`) result. -/
def processOne (pt : PlatformTypes) (st : WorkerState) (item : PyVal) :
    WorkerState × Except PyErr (PyStr × PyStr × Option PyVal) :=
  match unpack3 item with
  | .error e => (st, .error e)
  | .ok (method, resource, kwargs) =>
      match kwargs with
      | .dict kd =>
          match method with
          | .str ms =>
              match dictLookup method_handlers ms with
              | Option.none =>
                  (st, .error (.runtimeError (invalidMethodMsg method)))
              | some sub =>
                  match resource with
                  | .list _ => (st, .error .typeError)
                  | .dict _ => (st, .error .typeError)
                  | .str rs =>
                      match dictLookup sub rs with
                      | Option.none => (st, .error .keyError)
                      | some hk =>
                          match call_handler pt st hk kd with
                          | (st2, .error e) => (st2, .error e)
                          | (st2, .ok r) => (st2, .ok (ms, rs, r))
                  | _ => (st, .error .keyError)
          | .list _ => (st, .error .typeError)
          | .dict _ => (st, .error .typeError)
          | _ => (st, .error (.runtimeError (invalidMethodMsg method)))
      | _ => (st, .error (.attributeError (pystr "items")))

/-- The per-item loop of `Worker._process_request_items`: handle each
item in submission order, deep-merging a non-`None` result into the
response under method then resource. -/
def processItemList (pt : PlatformTypes) :
    WorkerState → List PyVal → PyDict →
    WorkerState × Except PyErr PyDict
  | st, [], response => (st, .ok response)
  | st, item :: rest, response =>
      match processOne pt st item with
      | (st2, .error e) => (st2, .error e)
      | (st2, .ok (_, _, Option.none)) => processItemList pt st2 rest response
      | (st2, .ok (ms, rs, some r)) =>
          processItemList pt st2 rest
            (inner_merge_pv response ms (.cons rs r .nil))

/-- `Worker._process_request_items(items)`. -/
def process_request_items (pt : PlatformTypes) (st : WorkerState)
    (items : PyVal) : WorkerState × Except PyErr PyDict :=
  match iterItems items with
  | .error e => (st, .error e)
  | .ok lst => processItemList pt st lst .nil

/-- The initial `feedback_to_send` mapping of `_on_receive`. -/
def onReceiveBase (received_time : Nat) : PyDict :=
  .cons (pystr "received_time") (.float received_time)
    (.cons (pystr "error") PyVal.none .nil)


/-- `Worker._on_receive(received)`: build
`{"received_time": ..., "error": None}`, decode the request and process
its items inside the `try`; a caught error is surfaced as the `error`
string, anything else propagates (`Except.error`, fatal to the serving
process); finally `sent_time` is stamped.  The returned mapping is what
`encode_transaction` then packs into the reply bytes. -/
def on_receive (pt : PlatformTypes) (st : WorkerState)
    (received : List Nat) (received_time sent_time : Nat) :
    WorkerState × Except PyErr PyDict :=
  match
    (match decode_request received with
     | .error e => (st, Except.error e)
     | .ok req => process_request_items pt st req.items) with
  | (st2, .ok fb) =>
      (st2, .ok ((onReceiveBase received_time).set (pystr "feedback") (.dict fb)
        |>.set (pystr "sent_time") (.float sent_time)))
  | (st2, .error e) =>
      if e.isCaught then
        (st2, .ok ((onReceiveBase received_time).set (pystr "error")
            (.str e.errorString)
          |>.set (pystr "sent_time") (.float sent_time)))
      else (st2, .error e)

end Mindstone

namespace Mindstone

/-! ## `gatenetwork.py` — the resolution engine

A `GateNetwork` is a dict from tag to `Gate` (`ControllerEnsembleABC`
extends `dict`), and a `Gate` is itself the `set` of its successor
tags; `_conditional_edges` maps an edge to `(path, evaluator, target)`.
A gate's procedure is an abstract function from the (possibly absent,
i.e. `None`) feed to a result; no gate in the verified claims has a
client, so the request-flush branch of `Gate.run` is inert, and the
ephemeral `feed` attribute set before and cleared after the call is
exactly the argument the procedure receives. -/

/-- A gate: its successor set and its procedure. -/
structure Gate where
  succ : List String
  proc : PyVal → PyVal

/-- `Gate.run(feed)`: store the feed, call the procedure on it, clear
the feed (no client: nothing is flushed). -/
def Gate.run (g : Gate) (feed : PyVal) : PyVal := g.proc feed

/-- A conditional edge's binary comparison function. -/
abbrev Evaluator : Type := PyVal → PyVal → Bool

/-- The gate network: gates, conditional-edge metadata, epoch ceiling. -/
structure GateNetwork where
  nodes : List (String × Gate)
  conditional_edges : List ((String × String) × (PyStr × Evaluator × PyVal))
  max_epochs : Option Nat

/-- `GateNetwork.set_max_epochs(n)`: rejects a ceiling below 1. -/
def set_max_epochs (net : GateNetwork) (n : Nat) : Except PyErr GateNetwork :=
  if n < 1 then
    .error (.valueError (pystr "The max epochs can" ++ sq ++
      pystr "t be less than 1."))
  else .ok { net with max_epochs := some n }

/-- `GateNetwork.add_gate(tag, procedure)`: a fresh gate (empty
successor set) inserted-or-overwritten at `tag`. -/
def add_gate (net : GateNetwork) (tag : String) (proc : PyVal → PyVal) :
    GateNetwork :=
  { net with nodes := dictSet net.nodes tag ⟨[], proc⟩ }

/-- `GateNetwork.add_edge` = `_graph.add_edge(self, from, to)`:
self-loops raise `ValueError`, a missing source raises `KeyError`. -/
def net_add_edge (net : GateNetwork) (from_tag to_tag : String) :
    Except PyErr GateNetwork :=
  if from_tag = to_tag then
    .error (.valueError (pystr "A node cannot be connected to itself"))
  else
    match dictLookup net.nodes from_tag with
    | some g =>
        let g2 : Gate := { g with succ := setAdd g.succ to_tag }
        .ok { net with nodes := dictSet net.nodes from_tag g2 }
    | Option.none => .error .keyError

/-- `GateNetwork.add_conditional_edge(from, to, target, path, evaluator,
fallback)`: record the condition, add the edge; with a fallback tag,
add the complement conditional edge over the same path and target with
the negated evaluator (the source recurses with `fallback_tag=None`;
the recursion is unrolled here). -/
def add_conditional_edge (net : GateNetwork) (from_tag to_tag : String)
    (target : PyVal) (path : PyStr) (evaluator : Evaluator)
    (fallback_tag : Option String) : Except PyErr GateNetwork := do
  let ces1 :=
    dictSet net.conditional_edges (from_tag, to_tag) (path, evaluator, target)
  let net1 := { net with conditional_edges := ces1 }
  let net2 ← net_add_edge net1 from_tag to_tag
  match fallback_tag with
  | some fb => do
      let ces3 := dictSet net2.conditional_edges (from_tag, fb)
        (path, fun a b => ! evaluator a b, target)
      let net3 := { net2 with conditional_edges := ces3 }
      net_add_edge net3 from_tag fb
  | Option.none => .ok net2

/-- `_graph.get_in_neighbors(self, child)` on the network's own dict. -/
def net_in_neighbors (net : GateNetwork) (child : String) : List String :=
  (net.nodes.filter (fun kv => child ∈ kv.2.succ)).map Prod.fst

/-- The in-neighbours reaching `child` over an unconditional edge
(the set comprehension of `_resolve_all`). -/
def unconditional_parents_of (net : GateNetwork) (child : String) :
    List String :=
  (net_in_neighbors net child).filter
    (fun p => (dictLookup net.conditional_edges (p, child)).isNone)

/-- The loop-local state of one epoch of `_resolve_all`. -/
structure EpochState where
  current : List (String × PyVal)
  unsatisfied : List (String × List (String × PyVal))
  resolved : List (String × PyVal)
  to_be_evaluated : List (String × PyDict)

/-- The whole-run state of `_resolve_all`. -/
structure ResolveState where
  current : List (String × PyVal)
  unsatisfied : List (String × List (String × PyVal))
  resolved : List (String × PyVal)
  epoch_count : Nat

/-- One step of `super_result.update(descendants[p] if descendants[p]
is not None else {})`: a `None` parent result merges nothing, a mapping
merges its entries, anything else raises `TypeError` (the source would
also accept an iterable of key/value pairs; no verified claim produces
one). -/
def superUpdate (acc : PyDict) (v : PyVal) : Except PyErr PyDict :=
  match v with
  | PyVal.none => .ok acc
  | .dict d => .ok (acc.update d)
  | _ => .error .typeError

/-- Accumulate `super_result` over the parents, in set order. -/
def foldParents (desc : List (String × PyVal)) :
    List String → PyDict → Except PyErr PyDict
  | [], acc => .ok acc
  | ptag :: rest, acc =>
      match dictLookup desc ptag with
      | some v => do
          let acc2 ← superUpdate acc v
          foldParents desc rest acc2
      | Option.none => .error .keyError

/-- `inner_merge(to_be_evaluated, child, super_result)`: the stored
values are always mappings here, so presence means merge. -/
def innerMergeTBE (m : List (String × PyDict)) (k : String) (v : PyDict) :
    List (String × PyDict) :=
  match dictLookup m k with
  | some old => dictSet m k (old.update v)
  | Option.none => dictSet m k v

/-- The eligibility step shared by both edge kinds: pop the child's
accumulated results, overlay the generation snapshot, and either fire
the child (removing its parents from `current`, deep-merging their
results into one feed) or re-record the pending parent. -/
def eligible (copy : List (String × PyVal)) (tag : String) (result : PyVal)
    (st : EpochState) (child : String) (parents : List String) :
    Except PyErr EpochState :=
  let descBase := (dictLookup st.unsatisfied child).getD []
  let unsat2 := dictRemove st.unsatisfied child
  let desc := dictUpdate descBase copy
  if parents.all (fun p => (dictLookup desc p).isSome) then do
    let super ← foldParents desc parents .nil
    let current2 := parents.foldl (fun cur p => dictRemove cur p) st.current
    let tbe2 := innerMergeTBE st.to_be_evaluated child super
    .ok ⟨current2, unsat2, st.resolved, tbe2⟩
  else
    .ok ⟨st.current, inner_merge unsat2 child [(tag, result)], st.resolved,
      st.to_be_evaluated⟩

/-- Handling of one successor edge of the gate under scrutiny: evaluate
a conditional edge's predicate at the registered dotted path of the
current result (skipping when the result is not a mapping or the
predicate is false), else gather all unconditional parents. -/
def processChild (net : GateNetwork) (copy : List (String × PyVal))
    (tag : String) (result : PyVal) (st : EpochState) (child : String) :
    Except PyErr EpochState :=
  match dictLookup net.conditional_edges (tag, child) with
  | some (path, evaluator, target) =>
      match result with
      | .dict _ => do
          let v ← get_nested path result
          if evaluator v target then eligible copy tag result st child [tag]
          else .ok st
      | _ => .ok st
  | Option.none =>
      eligible copy tag result st child (unconditional_parents_of net child)

/-- Handling of one entry of the generation snapshot: a gate with no
successors retires into `resolved`; otherwise each successor edge is
processed in turn. -/
def processEntry (net : GateNetwork) (copy : List (String × PyVal))
    (st : EpochState) (entry : String × PyVal) : Except PyErr EpochState :=
  match dictLookup net.nodes entry.1 with
  | Option.none => .error .keyError
  | some gate =>
      if gate.succ.isEmpty then
        match dictLookup st.current entry.1 with
        | some v =>
            .ok ⟨dictRemove st.current entry.1, st.unsatisfied,
              dictSet st.resolved entry.1 v, st.to_be_evaluated⟩
        | Option.none => .error .keyError
      else
        gate.succ.foldlM (processChild net copy entry.1 entry.2) st

/-- `self[tag].run(feed)`. -/
def run_gate (net : GateNetwork) (tag : String) (feed : PyVal) :
    Except PyErr PyVal :=
  match dictLookup net.nodes tag with
  | some g => .ok (g.run feed)
  | Option.none => .error .keyError

/-- Evaluate this epoch's eligible successors on their merged feeds, in
insertion order. -/
def evalToBE (net : GateNetwork) :
    List (String × PyDict) → Except PyErr (List (String × PyVal))
  | [] => .ok []
  | (t, feed) :: rest => do
      let r ← run_gate net t (.dict feed)
      let tl ← evalToBE net rest
      .ok ((t, r) :: tl)

/-- One iteration of the `while True` loop of `_resolve_all`. -/
def epoch_step (net : GateNetwork) (st : ResolveState) :
    Except PyErr ResolveState := do
  let ls ← st.current.foldlM (processEntry net st.current)
    (⟨st.current, st.unsatisfied, st.resolved, []⟩ : EpochState)
  let newResults ← evalToBE net ls.to_be_evaluated
  .ok ⟨dictUpdate ls.current newResults, ls.unsatisfied, ls.resolved,
    st.epoch_count + 1⟩

/-- The loop of `_resolve_all`: step, then return `resolved` (with the
epoch count) as soon as the generation is empty or the epoch count
equals the ceiling (`epoch_count == None` is false when no ceiling is
set).  The fuel only truncates observation of a non-terminating run:
`Option.none` means the loop was still running after `fuel` epochs. -/
def resolve_loop (net : GateNetwork) :
    ResolveState → Nat → Except PyErr (Option (List (String × PyVal) × Nat))
  | _, 0 => .ok Option.none
  | st, fuel + 1 => do
      let st2 ← epoch_step net st
      if st2.current.isEmpty ∨ net.max_epochs = some st2.epoch_count then
        .ok (some (st2.resolved, st2.epoch_count))
      else resolve_loop net st2 fuel

/-- `GateNetwork._resolve_all(starting_tag, initial_feed)`: run the
starting gate on the caller's feed to seed the generation, then loop.
(`GateNetwork.run` additionally emits a non-fatal isolated-gates
warning before delegating here; warnings are not modelled.) -/
def resolve_all (net : GateNetwork) (starting_tag : String)
    (initial_feed : PyVal) (fuel : Nat) :
    Except PyErr (Option (List (String × PyVal) × Nat)) := do
  let r0 ← run_gate net starting_tag initial_feed
  resolve_loop net ⟨[(starting_tag, r0)], [], [], 0⟩ fuel

/-- The three-gate chain of the A→B→C scenario, built with the
network's own mutators: `add_gate` for `a`, `b`, `c`, then
`add_edge("a","b")` and `add_edge("b","c")`; no conditional edges, no
epoch ceiling. -/
def chainNet (pA pB pC : PyVal → PyVal) : Except PyErr GateNetwork := do
  let n1 := add_gate ⟨[], [], Option.none⟩ "a" pA
  let n2 := add_gate n1 "b" pB
  let n3 := add_gate n2 "c" pC
  let n4 ← net_add_edge n3 "a" "b"
  net_add_edge n4 "b" "c"

/-- The conditional/fallback triangle: gates `a`, `b`, `c`, then
`add_conditional_edge("a", "b", target, path, evaluator,
fallback_tag="c")`, which also installs the complementary edge
`a`→`c` carrying the negated evaluator over the same path and target. -/
def condNet (pA pB pC : PyVal → PyVal) (path : PyStr) (ev : Evaluator)
    (target : PyVal) : Except PyErr GateNetwork := do
  let n1 := add_gate ⟨[], [], Option.none⟩ "a" pA
  let n2 := add_gate n1 "b" pB
  let n3 := add_gate n2 "c" pC
  add_conditional_edge n3 "a" "b" target path ev (some "c")

end Mindstone

namespace Mindstone

/-! ### Round trip of the msgpack codec -/

theorem readBE_natBE : ∀ (k acc n : Nat) (rest : List Nat), n < 256 ^ k →
    readBE k acc (natBE k n ++ rest) = some (acc * 256 ^ k + n, rest) := by
  intro k
  induction k with
  | zero =>
      intro acc n rest h
      simp only [pow_zero, Nat.lt_one_iff] at h
      simp [natBE, readBE, h]
  | succ k ih =>
      intro acc n rest h
      have hmod : n % 256 ^ k < 256 ^ k := Nat.mod_lt _ (by positivity)
      simp only [natBE, List.cons_append, List.append_eq, readBE]
      rw [ih (acc * 256 + n / 256 ^ k) (n % 256 ^ k) rest hmod]
      have hq := Nat.div_add_mod n (256 ^ k)
      have harith : (acc * 256 + n / 256 ^ k) * 256 ^ k + n % 256 ^ k
          = acc * (256 ^ k * 256) + (256 ^ k * (n / 256 ^ k) + n % 256 ^ k) := by
        ring
      rw [harith, hq, ← pow_succ]

theorem readN_exact (s rest : List Nat) :
    readN s.length (s ++ rest) = some (s, rest) := by
  unfold readN
  rw [if_pos (by simp)]
  rw [List.take_left, List.drop_left]

/-! Helper lemmas: the behaviour of `decV` on each symbolic leading-byte
region (regions whose first byte is a literal reduce by `simp` alone). -/

set_option maxRecDepth 8000
set_option maxHeartbeats 1600000

theorem decL_zero (fuel : Nat) (bs : List Nat) :
    decL fuel 0 bs = some (.nil, bs) := by
  cases fuel <;> rfl

theorem decL_succ (fuel n : Nat) (bs : List Nat) :
    decL (fuel + 1) (n + 1) bs =
      optPair (decV fuel bs) (fun v bs2 =>
        optPair (decL fuel n bs2)
          (fun tl rest => some (.cons v tl, rest))) := rfl

theorem decD_zero (fuel : Nat) (bs : List Nat) :
    decD fuel 0 bs = some (.nil, bs) := by
  cases fuel <;> rfl

theorem decD_succ (fuel n : Nat) (bs : List Nat) :
    decD (fuel + 1) (n + 1) bs =
      optPair (decV fuel bs) (fun kv bs2 => strKey kv (fun k =>
        optPair (decV fuel bs2) (fun v bs3 =>
          optPair (decD fuel n bs3) (fun tl rest =>
            some (.cons k v tl, rest))))) := rfl

theorem decV_posfix (fuel b : Nat) (bs : List Nat) (h : b < 0x80) :
    decV (fuel + 1) (b :: bs) = some (.int b, bs) := by
  rw [decV, if_pos h]

theorem decV_fixmap (fuel b : Nat) (bs : List Nat)
    (h1 : 0x80 ≤ b) (h2 : b < 0x90) :
    decV (fuel + 1) (b :: bs) =
      optPair (decD fuel (b - 0x80) bs) (fun d rest => some (.dict d, rest)) := by
  rw [decV, if_neg ((by omega)), if_pos (by omega)]

theorem decV_fixarray (fuel b : Nat) (bs : List Nat)
    (h1 : 0x90 ≤ b) (h2 : b < 0xa0) :
    decV (fuel + 1) (b :: bs) =
      optPair (decL fuel (b - 0x90) bs) (fun l rest => some (.list l, rest)) := by
  rw [decV, if_neg (by omega), if_neg ((by omega)), if_pos (by omega)]

theorem decV_fixstr (fuel b : Nat) (bs : List Nat)
    (h1 : 0xa0 ≤ b) (h2 : b < 0xc0) :
    decV (fuel + 1) (b :: bs) =
      optPair (readN (b - 0xa0) bs) (fun s rest => some (.str s, rest)) := by
  rw [decV, if_neg (by omega), if_neg ((by omega)), if_neg (by omega), if_pos (by omega)]

theorem decV_negfix (fuel b : Nat) (bs : List Nat)
    (h1 : 0xe0 ≤ b) (h2 : b ≤ 0xff) :
    decV (fuel + 1) (b :: bs) = some (.int ((b : Int) - 0x100), bs) := by
  rw [decV, if_neg ((by omega)), if_neg (by omega), if_neg ((by omega)), if_neg (by omega),
      if_neg ((by omega)), if_neg (by omega), if_neg ((by omega)), if_neg (by omega),
      if_neg ((by omega)), if_neg (by omega), if_neg ((by omega)), if_neg (by omega),
      if_neg ((by omega)), if_neg (by omega), if_neg ((by omega)), if_neg (by omega),
      if_neg ((by omega)), if_neg (by omega), if_neg ((by omega)), if_neg (by omega),
      if_neg ((by omega)), if_neg (by omega), if_neg ((by omega)), if_pos (by omega)]

end Mindstone

namespace Mindstone

theorem decV_encStr (s : PyStr) (bs rest : List Nat) (fuel : Nat)
    (h : encStr s = some bs) :
    decV (fuel + 1) (bs ++ rest) = some (.str s, rest) := by
  unfold encStr at h
  split_ifs at h with h1 h2 h3
  · injection h with h
    subst h
    rw [List.cons_append,
      decV_fixstr fuel (0xa0 + s.length) (s ++ rest) (by omega) (by omega),
      (by omega : 0xa0 + s.length - 0xa0 = s.length), readN_exact]
    rfl
  · injection h with h
    subst h
    rw [List.cons_append, List.cons_append, decV]
    norm_num [optPair, readByte, readN_exact]
  · injection h with h
    subst h
    rw [List.append_assoc, List.cons_append, decV]
    norm_num [optPair]
    rw [readBE_natBE 2 0 s.length (s ++ rest) (by omega)]
    norm_num [optPair, readN_exact]
  · injection h with h
    subst h
    rw [List.append_assoc, List.cons_append, decV]
    norm_num [optPair]
    rw [readBE_natBE 4 0 s.length (s ++ rest) (by omega)]
    norm_num [optPair, readN_exact]

theorem decV_encInt (n : Int) (bs rest : List Nat) (fuel : Nat)
    (h : encInt n = some bs) :
    decV (fuel + 1) (bs ++ rest) = some (.int n, rest) := by
  unfold encInt at h
  by_cases h0 : 0 ≤ n
  · rw [if_pos h0] at h
    split_ifs at h with h1 h2 h3 h4 h5
    · injection h with h
      subst h
      rw [List.cons_append, List.nil_append, decV_posfix fuel n.toNat rest h1,
        Int.toNat_of_nonneg h0]
    · injection h with h
      subst h
      rw [List.cons_append, List.cons_append, List.nil_append, decV]
      norm_num [optPair, readByte]
      omega
    · injection h with h
      subst h
      rw [List.cons_append, decV]
      norm_num [optPair]
      rw [readBE_natBE 2 0 n.toNat rest (by omega)]
      norm_num [optPair]
      omega
    · injection h with h
      subst h
      rw [List.cons_append, decV]
      norm_num [optPair]
      rw [readBE_natBE 4 0 n.toNat rest (by omega)]
      norm_num [optPair]
      omega
    · injection h with h
      subst h
      rw [List.cons_append, decV]
      norm_num [optPair]
      rw [readBE_natBE 8 0 n.toNat rest (by omega)]
      norm_num [optPair]
      omega
  · rw [if_neg h0] at h
    split_ifs at h with h1 h2 h3 h4 h5
    · injection h with h
      subst h
      rw [List.cons_append, List.nil_append,
        decV_negfix fuel (n + 0x100).toNat rest (by omega) (by omega)]
      norm_num
      omega
    · injection h with h
      subst h
      rw [List.cons_append, List.cons_append, List.nil_append, decV]
      norm_num [optPair, readByte, signed]
      omega
    · injection h with h
      subst h
      rw [List.cons_append, decV]
      norm_num [optPair]
      rw [readBE_natBE 2 0 (n + 0x10000).toNat rest (by omega)]
      norm_num [optPair, signed]
      omega
    · injection h with h
      subst h
      rw [List.cons_append, decV]
      norm_num [optPair]
      rw [readBE_natBE 4 0 (n + 0x100000000).toNat rest (by omega)]
      norm_num [optPair, signed]
      omega
    · injection h with h
      subst h
      rw [List.cons_append, decV]
      norm_num [optPair]
      rw [readBE_natBE 8 0 (n + 0x10000000000000000).toNat rest (by omega)]
      norm_num [optPair, signed]
      omega

end Mindstone

namespace Mindstone

theorem encInt_len (n : Int) (bs : List Nat) (h : encInt n = some bs) :
    1 ≤ bs.length := by
  unfold encInt at h
  split_ifs at h <;> (injection h with h; subst h; simp only [List.length_cons]; omega)

theorem encStr_len (s : PyStr) (bs : List Nat) (h : encStr s = some bs) :
    1 ≤ bs.length := by
  unfold encStr at h
  split_ifs at h <;>
    (injection h with h; subst h;
     simp only [List.length_cons, List.length_append]; omega)

theorem arrHeader_len (n : Nat) (bs : List Nat) (h : arrHeader n = some bs) :
    1 ≤ bs.length := by
  unfold arrHeader at h
  split_ifs at h <;> (injection h with h; subst h; simp only [List.length_cons]; omega)

theorem mapHeader_len (n : Nat) (bs : List Nat) (h : mapHeader n = some bs) :
    1 ≤ bs.length := by
  unfold mapHeader at h
  split_ifs at h <;> (injection h with h; subst h; simp only [List.length_cons]; omega)

theorem encV_len (v : PyVal) (bs : List Nat) (h : encV v = some bs) :
    1 ≤ bs.length := by
  cases v with
  | none => simp only [encV] at h; injection h with h; subst h; simp
  | bool b =>
      cases b <;> (simp only [encV] at h; injection h with h; subst h; simp)
  | int n => exact encInt_len n bs h
  | float bits =>
      simp only [encV] at h
      split_ifs at h
      injection h with h; subst h; simp only [List.length_cons]; omega
  | str s => exact encStr_len s bs h
  | list xs =>
      simp only [encV] at h
      cases harr : arrHeader xs.length with
      | none => rw [harr] at h; simp at h
      | some hd =>
        cases henc : encL xs with
        | none => rw [harr, henc] at h; simp at h
        | some body =>
          rw [harr, henc] at h
          injection h with h; subst h
          have := arrHeader_len xs.length hd harr
          simp only [List.length_append]; omega
  | dict xs =>
      simp only [encV] at h
      cases harr : mapHeader xs.length with
      | none => rw [harr] at h; simp at h
      | some hd =>
        cases henc : encD xs with
        | none => rw [harr, henc] at h; simp at h
        | some body =>
          rw [harr, henc] at h
          injection h with h; subst h
          have := mapHeader_len xs.length hd harr
          simp only [List.length_append]; omega

mutual
/-- What `decV` makes of a packed value: the value back, the trailing
bytes untouched, for any fuel at least the value's cost. -/
theorem decV_encV : ∀ (v : PyVal) (bs rest : List Nat) (fuel : Nat),
    encV v = some bs → costV v ≤ fuel →
    decV fuel (bs ++ rest) = some (v, rest) := by
  intro v bs rest fuel h hc
  cases v with
  | none =>
      simp only [encV] at h
      injection h with h; subst h
      simp only [costV] at hc
      cases fuel with
      | zero => omega
      | succ f =>
          rw [List.cons_append, List.nil_append, decV]
          norm_num
  | bool b =>
      simp only [costV] at hc
      cases fuel with
      | zero => omega
      | succ f =>
          cases b <;>
            (simp only [encV] at h; injection h with h; subst h;
             rw [List.cons_append, List.nil_append, decV]; norm_num)
  | int n =>
      simp only [encV] at h
      simp only [costV] at hc
      cases fuel with
      | zero => omega
      | succ f => exact decV_encInt n bs rest f h
  | float bits =>
      simp only [encV] at h
      split_ifs at h with hb
      injection h with h; subst h
      simp only [costV] at hc
      cases fuel with
      | zero => omega
      | succ f =>
          rw [List.cons_append, decV]
          norm_num [optPair]
          rw [readBE_natBE 8 0 bits rest hb]
          norm_num [optPair]
  | str s =>
      simp only [encV] at h
      simp only [costV] at hc
      cases fuel with
      | zero => omega
      | succ f => exact decV_encStr s bs rest f h
  | list xs =>
      simp only [encV] at h
      cases harr : arrHeader xs.length with
      | none => rw [harr] at h; simp at h
      | some hd =>
        cases henc : encL xs with
        | none => rw [harr, henc] at h; simp at h
        | some body =>
          rw [harr, henc] at h
          injection h with h; subst h
          simp only [costV] at hc
          cases fuel with
          | zero => omega
          | succ f =>
            have hcl : costL xs ≤ f := by omega
            unfold arrHeader at harr
            split_ifs at harr with hn1 hn2
            · injection harr with harr; subst harr
              simp only [List.cons_append, List.nil_append]
              rw [decV_fixarray f (0x90 + xs.length) (body ++ rest)
                  (by omega) (by omega),
                (by omega : 0x90 + xs.length - 0x90 = xs.length),
                decL_encL xs body rest f henc hcl]
              rfl
            · injection harr with harr; subst harr
              rw [List.append_assoc, List.cons_append, decV]
              norm_num [optPair]
              rw [readBE_natBE 2 0 xs.length (body ++ rest) (by omega)]
              norm_num [optPair]
              rw [decL_encL xs body rest f henc hcl]
            · injection harr with harr; subst harr
              rw [List.append_assoc, List.cons_append, decV]
              norm_num [optPair]
              rw [readBE_natBE 4 0 xs.length (body ++ rest) (by omega)]
              norm_num [optPair]
              rw [decL_encL xs body rest f henc hcl]
  | dict xs =>
      simp only [encV] at h
      cases harr : mapHeader xs.length with
      | none => rw [harr] at h; simp at h
      | some hd =>
        cases henc : encD xs with
        | none => rw [harr, henc] at h; simp at h
        | some body =>
          rw [harr, henc] at h
          injection h with h; subst h
          simp only [costV] at hc
          cases fuel with
          | zero => omega
          | succ f =>
            have hcd : costD xs ≤ f := by omega
            unfold mapHeader at harr
            split_ifs at harr with hn1 hn2
            · injection harr with harr; subst harr
              simp only [List.cons_append, List.nil_append]
              rw [decV_fixmap f (0x80 + xs.length) (body ++ rest)
                  (by omega) (by omega),
                (by omega : 0x80 + xs.length - 0x80 = xs.length),
                decD_encD xs body rest f henc hcd]
              rfl
            · injection harr with harr; subst harr
              rw [List.append_assoc, List.cons_append, decV]
              norm_num [optPair]
              rw [readBE_natBE 2 0 xs.length (body ++ rest) (by omega)]
              norm_num [optPair]
              rw [decD_encD xs body rest f henc hcd]
            · injection harr with harr; subst harr
              rw [List.append_assoc, List.cons_append, decV]
              norm_num [optPair]
              rw [readBE_natBE 4 0 xs.length (body ++ rest) (by omega)]
              norm_num [optPair]
              rw [decD_encD xs body rest f henc hcd]
/-- What `decL` makes of packed array elements. -/
theorem decL_encL : ∀ (xs : PyList) (bs rest : List Nat) (fuel : Nat),
    encL xs = some bs → costL xs ≤ fuel →
    decL fuel xs.length (bs ++ rest) = some (xs, rest) := by
  intro xs bs rest fuel h hc
  cases xs with
  | nil =>
      simp only [encL] at h
      injection h with h; subst h
      simp only [PyList.length, List.nil_append]
      exact decL_zero fuel rest
  | cons v tl =>
      simp only [encL] at h
      cases hv : encV v with
      | none => rw [hv] at h; simp at h
      | some a =>
        cases ht : encL tl with
        | none => rw [hv, ht] at h; simp at h
        | some b =>
          rw [hv, ht] at h
          injection h with h; subst h
          simp only [costL] at hc
          cases fuel with
          | zero => omega
          | succ f =>
            have hc1 : costV v ≤ f := by omega
            have hc2 : costL tl ≤ f := by omega
            simp only [PyList.length]
            rw [List.append_assoc, decL_succ,
              decV_encV v a (b ++ rest) f hv hc1]
            simp only [optPair]
            rw [decL_encL tl b rest f ht hc2]
/-- What `decD` makes of packed map pairs. -/
theorem decD_encD : ∀ (xs : PyDict) (bs rest : List Nat) (fuel : Nat),
    encD xs = some bs → costD xs ≤ fuel →
    decD fuel xs.length (bs ++ rest) = some (xs, rest) := by
  intro xs bs rest fuel h hc
  cases xs with
  | nil =>
      simp only [encD] at h
      injection h with h; subst h
      simp only [PyDict.length, List.nil_append]
      exact decD_zero fuel rest
  | cons k v tl =>
      simp only [encD] at h
      cases hk : encStr k with
      | none => rw [hk] at h; simp at h
      | some ks =>
        cases hv : encV v with
        | none => rw [hk, hv] at h; simp at h
        | some a =>
          cases ht : encD tl with
          | none => rw [hk, hv, ht] at h; simp at h
          | some b =>
            rw [hk, hv, ht] at h
            injection h with h; subst h
            simp only [costD] at hc
            cases fuel with
            | zero => omega
            | succ f =>
              cases f with
              | zero => omega
              | succ f2 =>
                have hc1 : costV v ≤ f2 + 1 := by omega
                have hc2 : costD tl ≤ f2 + 1 := by omega
                simp only [PyDict.length]
                rw [List.append_assoc, List.append_assoc, decD_succ,
                  decV_encStr k ks (a ++ (b ++ rest)) f2 hk]
                simp only [optPair, strKey]
                rw [decV_encV v a (b ++ rest) (f2 + 1) hv hc1]
                simp only [optPair]
                rw [decD_encD tl b rest (f2 + 1) ht hc2]
end

mutual
/-- The unpacking cost of a value is dominated by its packed length. -/
theorem costV_lt_encV_length : ∀ (v : PyVal) (bs : List Nat),
    encV v = some bs → costV v < 4 * bs.length := by
  intro v bs h
  cases v with
  | none =>
      have := encV_len _ _ h
      simp only [costV]; omega
  | bool b =>
      have := encV_len _ _ h
      simp only [costV]; omega
  | int n =>
      have := encV_len _ _ h
      simp only [costV]; omega
  | float bits =>
      have := encV_len _ _ h
      simp only [costV]; omega
  | str s =>
      have := encV_len _ _ h
      simp only [costV]; omega
  | list xs =>
      simp only [encV] at h
      cases harr : arrHeader xs.length with
      | none => rw [harr] at h; simp at h
      | some hd =>
        cases henc : encL xs with
        | none => rw [harr, henc] at h; simp at h
        | some body =>
          rw [harr, henc] at h
          injection h with h; subst h
          have h1 := arrHeader_len xs.length hd harr
          have h2 := costL_le_encL_length xs body henc
          simp only [costV, List.length_append]; omega
  | dict xs =>
      simp only [encV] at h
      cases harr : mapHeader xs.length with
      | none => rw [harr] at h; simp at h
      | some hd =>
        cases henc : encD xs with
        | none => rw [harr, henc] at h; simp at h
        | some body =>
          rw [harr, henc] at h
          injection h with h; subst h
          have h1 := mapHeader_len xs.length hd harr
          have h2 := costD_le_encD_length xs body henc
          simp only [costV, List.length_append]; omega
/-- The unpacking cost of array elements is dominated by their packed
length. -/
theorem costL_le_encL_length : ∀ (xs : PyList) (bs : List Nat),
    encL xs = some bs → costL xs ≤ 4 * bs.length := by
  intro xs bs h
  cases xs with
  | nil =>
      simp only [encL] at h
      injection h with h; subst h
      simp [costL]
  | cons v tl =>
      simp only [encL] at h
      cases hv : encV v with
      | none => rw [hv] at h; simp at h
      | some a =>
        cases ht : encL tl with
        | none => rw [hv, ht] at h; simp at h
        | some b =>
          rw [hv, ht] at h
          injection h with h; subst h
          have h1 := costV_lt_encV_length v a hv
          have h2 := costL_le_encL_length tl b ht
          simp only [costL, List.length_append]; omega
/-- The unpacking cost of map pairs is dominated by their packed length. -/
theorem costD_le_encD_length : ∀ (xs : PyDict) (bs : List Nat),
    encD xs = some bs → costD xs ≤ 4 * bs.length := by
  intro xs bs h
  cases xs with
  | nil =>
      simp only [encD] at h
      injection h with h; subst h
      simp [costD]
  | cons k v tl =>
      simp only [encD] at h
      cases hk : encStr k with
      | none => rw [hk] at h; simp at h
      | some ks =>
        cases hv : encV v with
        | none => rw [hk, hv] at h; simp at h
        | some a =>
          cases ht : encD tl with
          | none => rw [hk, hv, ht] at h; simp at h
          | some b =>
            rw [hk, hv, ht] at h
            injection h with h; subst h
            have h0 := encStr_len k ks hk
            have h1 := costV_lt_encV_length v a hv
            have h2 := costD_le_encD_length tl b ht
            simp only [costD, List.length_append]; omega
end

/-- `msgpack.loads` inverts `msgpack.dumps` on every packable value. -/
theorem loads_encV (v : PyVal) (bs : List Nat) (h : encV v = some bs) :
    loads bs = .ok v := by
  unfold loads
  have hlt := costV_lt_encV_length v bs h
  have hdec := decV_encV v bs [] (4 * bs.length + 1) h (by omega)
  rw [List.append_nil] at hdec
  rw [hdec]

end Mindstone

namespace Mindstone

/-! ### Association-list dictionary lemmas -/

theorem dictLookup_dictSet_self {κ α : Type} [DecidableEq κ]
    (l : List (κ × α)) (k : κ) (v : α) :
    dictLookup (dictSet l k v) k = some v := by
  induction l with
  | nil => simp [dictSet, dictLookup]
  | cons hd tl ih =>
      by_cases h : hd.1 = k
      · simp [dictSet, dictLookup, h]
      · simp [dictSet, dictLookup, h, ih]

theorem dictLookup_dictSet_ne {κ α : Type} [DecidableEq κ]
    (l : List (κ × α)) (k k' : κ) (v : α) (h : k' ≠ k) :
    dictLookup (dictSet l k v) k' = dictLookup l k' := by
  induction l with
  | nil =>
      simp only [dictSet, dictLookup]
      rw [if_neg (Ne.symm h)]
  | cons hd tl ih =>
      obtain ⟨a, w⟩ := hd
      by_cases hk : a = k
      · subst hk
        simp [dictSet, dictLookup, Ne.symm h]
      · simp [dictSet, dictLookup, hk, ih]

theorem dictLookup_eq_none {κ α : Type} [DecidableEq κ]
    (l : List (κ × α)) (k : κ) (h : ∀ p ∈ l, p.1 ≠ k) :
    dictLookup l k = Option.none := by
  induction l with
  | nil => rfl
  | cons hd tl ih =>
      simp only [dictLookup]
      rw [if_neg (h hd (List.mem_cons_self hd tl))]
      exact ih (fun p hp => h p (List.mem_cons_of_mem hd hp))

theorem mem_setAdd (s : List String) (x : String) : x ∈ setAdd s x := by
  unfold setAdd
  split_ifs with h
  · exact h
  · simp

/-! ### Claim C8 — `remove_node` -/

/-- C8 counterexample: the claim quantifies over *every* graph and key,
but when `k` is not a node (here a dangling edge `a → b` with `b`
unregistered, a state `add_edge` can produce, see C10), `remove_node`
is a no-op — the `for` loop that prunes inbound edges sits inside the
`if key in graph` guard — so the edge referencing `k` survives. -/
theorem remove_node_dangling_edge_survives :
    ¬ (dictLookup (remove_node [("a", ["b"])] "b") "b" = Option.none ∧
       ∀ p ∈ remove_node [("a", ["b"])] "b", "b" ∉ p.2) := by
  intro ⟨_, h⟩
  exact h ("a", ["b"]) (by decide) (by decide)

/-- C8 (amended): for every graph `G` and every key `k` that is a node
of `G`, after `remove_node(G, k)` the key `k` is not a node and no
successor set of any remaining node contains `k`. -/
theorem remove_node_strips_all_edges (G : Graph) (k : String)
    (hk : (dictLookup G k).isSome) :
    dictLookup (remove_node G k) k = Option.none ∧
    ∀ p ∈ remove_node G k, k ∉ p.2 := by
  constructor
  · unfold remove_node
    rw [if_pos hk]
    apply dictLookup_eq_none
    intro p hp
    obtain ⟨q, hq, hpq⟩ := List.mem_map.mp hp
    have := List.mem_filter.mp hq
    obtain ⟨_, hq2⟩ := this
    rw [← hpq]
    simpa using hq2
  · intro p hp
    unfold remove_node at hp
    rw [if_pos hk] at hp
    obtain ⟨q, _, hpq⟩ := List.mem_map.mp hp
    rw [← hpq]
    intro hmem
    have := List.mem_filter.mp hmem
    simp at this

/-- C8 witness: a concrete graph with `k` among its nodes. -/
theorem remove_node_strips_all_edges_witness :
    dictLookup (remove_node [("a", ["b"]), ("b", ["a"])] "b") "b" =
        Option.none ∧
    ∀ p ∈ remove_node [("a", ["b"]), ("b", ["a"])] "b", "b" ∉ p.2 :=
  remove_node_strips_all_edges [("a", ["b"]), ("b", ["a"])] "b" (by decide)

/-! ### Claim C10 — dangling edges are representable -/

/-- C10: for a node `a` of `G` and a key `b ≠ a` that is not a node,
`add_edge(G, a, b)` succeeds, puts `b` into `a`'s successor set, and
leaves `b` unregistered — the graph holds a dangling edge and nothing
rejects or repairs it. -/
theorem add_edge_dangling_target (G : Graph) (a b : String)
    (s : List String) (ha : dictLookup G a = some s) (hab : b ≠ a)
    (hb : dictLookup G b = Option.none) :
    ∃ G', add_edge G a b = .ok G' ∧
      dictLookup G' a = some (setAdd s b) ∧ b ∈ setAdd s b ∧
      dictLookup G' b = Option.none := by
  refine ⟨dictSet G a (setAdd s b), ?_, ?_, mem_setAdd s b, ?_⟩
  · unfold add_edge
    rw [if_neg (fun c => hab c.symm), ha]
  · exact dictLookup_dictSet_self G a (setAdd s b)
  · rw [dictLookup_dictSet_ne G a b (setAdd s b) hab]
    exact hb

/-- C10 witness: one node, one dangling insertion. -/
theorem add_edge_dangling_target_witness :
    ∃ G', add_edge [("a", [])] "a" "b" = .ok G' ∧
      dictLookup G' "a" = some (setAdd [] "b") ∧ "b" ∈ setAdd [] "b" ∧
      dictLookup G' "b" = Option.none :=
  add_edge_dangling_target [("a", [])] "a" "b" [] (by decide) (by decide)
    (by decide)

/-! ### Claim C9 — `get_nested` on a non-mapping intermediate -/

/-- C9 divergence: `get_nested("a.b", {"a": 5})` cannot find the item,
yet instead of the promised `None` (docstring: "If the item can't be
found, a None value is returned") the recursion evaluates `"b" in 5`,
which raises `TypeError` — `get_nested` does raise. -/
theorem get_nested_raises_on_non_mapping :
    get_nested (pystr "a.b") (.dict (.cons (pystr "a") (.int 5) .nil)) =
      .error .typeError := by decide

end Mindstone

namespace Mindstone

/-! ### Claims C2 and C3 — envelope encode/decode -/

theorem bind_ok {ε α β : Type} (a : α) (f : α → Except ε β) :
    (Bind.bind (Except.ok a) f : Except ε β) = f a := rfl

theorem decode_request_of_wf (st it : PyVal) (bq : List Nat)
    (hf : st.isFloat = true) (hl : it.isList = true)
    (heq : encode_transaction (Request.toDict ⟨st, it⟩) = some bq) :
    decode_request bq = .ok ⟨st, it⟩ := by
  have hload := loads_encV _ _ heq
  have hne : pystr "sent_time" ≠ pystr "items" := by decide
  unfold decode_request decode_transaction
  rw [hload]
  simp [Request.toDict, requestFields, get_unsatisfied_fields, PyDict.lookup,
    mkRequest, PyDict.keys, hf, hl, hne, bind_ok, List.forall_mem_cons]

theorem decode_response_of_wf (rt st fb er : PyVal) (bs : List Nat)
    (h1 : rt.isFloat = true) (h2 : st.isFloat = true)
    (h3 : fb.isDict = true ∨ fb = PyVal.none)
    (h4 : er.isStr = true ∨ er = PyVal.none)
    (hes : encode_transaction (Response.toDict ⟨rt, st, fb, er⟩) = some bs) :
    decode_response bs = .ok ⟨rt, st, fb, er⟩ := by
  have hload := loads_encV _ _ hes
  have hne1 : pystr "received_time" ≠ pystr "sent_time" := by decide
  have hne2 : pystr "received_time" ≠ pystr "feedback" := by decide
  have hne3 : pystr "received_time" ≠ pystr "error" := by decide
  have hne4 : pystr "sent_time" ≠ pystr "feedback" := by decide
  have hne5 : pystr "sent_time" ≠ pystr "error" := by decide
  have hne6 : pystr "feedback" ≠ pystr "error" := by decide
  unfold decode_response decode_transaction
  rw [hload]
  rcases h3 with h3 | h3 <;> rcases h4 with h4 | h4 <;>
    simp [Response.toDict, responseFields, get_unsatisfied_fields,
      PyDict.lookup, mkResponse, PyDict.keys, h1, h2, h3, h4,
      hne1, hne2, hne3, hne4, hne5, hne6, bind_ok, List.forall_mem_cons]

/-- C2: for well-formed `Request` and `Response` records (fields bound
at their declared types, values drawn from the msgpack-transportable
universe — the encoding hypotheses say exactly that packing succeeds),
decoding the packed record yields the record back:
`decode_request(encode_transaction(rq)) == rq` and
`decode_response(encode_transaction(rs)) == rs`.  Float fields round
trip as their 64-bit patterns (Python's `nan != nan` quirk under `==`
is outside the model). -/
theorem decode_of_encode_transaction (rq : Request) (rs : Response)
    (bq bs : List Nat) (hq : rq.wellFormed) (hs : rs.wellFormed)
    (heq : encode_transaction rq.toDict = some bq)
    (hes : encode_transaction rs.toDict = some bs) :
    decode_request bq = .ok rq ∧ decode_response bs = .ok rs := by
  obtain ⟨rqs, rqi⟩ := rq
  obtain ⟨rrt, rst, rfb, rer⟩ := rs
  obtain ⟨hf, hl⟩ := hq
  obtain ⟨h1, h2, h3, h4⟩ := hs
  exact ⟨decode_request_of_wf rqs rqi bq hf hl heq,
    decode_response_of_wf rrt rst rfb rer bs h1 h2 h3 h4 hes⟩

/-- C2 witness: a concrete request (`sent_time` 1.5, one item) and a
concrete response (`feedback` a mapping, `error` absent). -/
theorem decode_of_encode_transaction_witness :
    decode_request ((encode_transaction (Request.toDict
        ⟨.float 0x3FF8000000000000,
         .list (.cons (.str (pystr "x")) .nil)⟩)).getD []) =
      .ok ⟨.float 0x3FF8000000000000, .list (.cons (.str (pystr "x")) .nil)⟩ ∧
    decode_response ((encode_transaction (Response.toDict
        ⟨.float 1, .float 2,
         .dict (.cons (pystr "get") (.dict .nil) .nil), PyVal.none⟩)).getD []) =
      .ok ⟨.float 1, .float 2,
        .dict (.cons (pystr "get") (.dict .nil) .nil), PyVal.none⟩ :=
  decode_of_encode_transaction
    ⟨.float 0x3FF8000000000000, .list (.cons (.str (pystr "x")) .nil)⟩
    ⟨.float 1, .float 2, .dict (.cons (pystr "get") (.dict .nil) .nil),
      PyVal.none⟩
    _ _ ⟨by decide, by decide⟩
    ⟨by decide, by decide, Or.inl (by decide), Or.inr rfl⟩
    (by decide) (by decide)

/-- C3 divergence evaluation: a payload missing a required field (or
binding one at the wrong type) makes `_get_unsatisfied_fields` evaluate
`getattr(datacls, field)` on a default-less dataclass field, which has
no class-level attribute — an `AttributeError` naming only the first
bad field, instead of the `ValueError` of `_decode_transaction` naming
every unsatisfied field.  Three instances: the empty mapping, a mapping
missing only `items`, and a mapping whose `sent_time` has the wrong
type. -/
theorem decode_missing_field_attribute_error :
    decode_request ((encode_transaction (.dict .nil)).getD []) =
        .error (.attributeError (pystr "sent_time")) ∧
    decode_request ((encode_transaction
        (.dict (.cons (pystr "sent_time") (.float 0) .nil))).getD []) =
        .error (.attributeError (pystr "items")) ∧
    decode_request ((encode_transaction
        (.dict (.cons (pystr "sent_time") (.str (pystr "x"))
          (.cons (pystr "items") (.list .nil) .nil)))).getD []) =
        .error (.attributeError (pystr "sent_time")) := by
  refine ⟨by decide, by decide, by decide⟩

end Mindstone

namespace Mindstone

/-! ### Claim C4 — `error` and `feedback` are mutually exclusive -/

/-- C4: whenever `_on_receive` replies at all (a caught error or
success — an uncaught error instead kills the serving process and no
`Response` exists), the reply mapping either has `error = None` with a
`feedback` mapping bound, or an `error` string with no `feedback` key at
all; never both populated. -/
theorem on_receive_error_feedback_exclusive
    (pt : PlatformTypes) (st st2 : WorkerState) (received : List Nat)
    (rt sent : Nat) (d : PyDict)
    (h : on_receive pt st received rt sent = (st2, .ok d)) :
    (d.lookup (pystr "error") = some PyVal.none ∧
      ∃ fb, d.lookup (pystr "feedback") = some (.dict fb)) ∨
    (∃ msg, d.lookup (pystr "error") = some (.str msg) ∧
      d.lookup (pystr "feedback") = Option.none) := by
  have k1 : pystr "received_time" ≠ pystr "error" := by decide
  have k2 : pystr "received_time" ≠ pystr "feedback" := by decide
  have k3 : pystr "received_time" ≠ pystr "sent_time" := by decide
  have k4 : pystr "error" ≠ pystr "feedback" := by decide
  have k5 : pystr "error" ≠ pystr "sent_time" := by decide
  have k6 : pystr "feedback" ≠ pystr "sent_time" := by decide
  have k7 : pystr "sent_time" ≠ pystr "feedback" := by decide
  have k8 : pystr "sent_time" ≠ pystr "error" := by decide
  have k9 : pystr "feedback" ≠ pystr "error" := by decide
  unfold on_receive at h
  cases hdec : decode_request received with
  | error e =>
      rw [hdec] at h
      dsimp only at h
      by_cases hc : e.isCaught
      · rw [if_pos hc] at h
        obtain ⟨-, h2⟩ := Prod.ext_iff.mp h
        injection h2 with h2
        subst h2
        right
        refine ⟨e.errorString, ?_, ?_⟩ <;>
          simp [onReceiveBase, PyDict.set, PyDict.lookup, k1, k2, k3, k4,
            k5, k6, k7, k8, k9]
      · rw [if_neg hc] at h
        exact absurd (Prod.ext_iff.mp h).2 (by simp)
  | ok req =>
      rw [hdec] at h
      dsimp only at h
      cases hpr : process_request_items pt st req.items with
      | mk st3 res =>
          rw [hpr] at h
          cases res with
          | ok fb =>
              dsimp only at h
              obtain ⟨-, h2⟩ := Prod.ext_iff.mp h
              injection h2 with h2
              subst h2
              left
              refine ⟨?_, fb, ?_⟩ <;>
                simp [onReceiveBase, PyDict.set, PyDict.lookup, k1, k2, k3,
                  k4, k5, k6, k7, k8, k9]
          | error e =>
              dsimp only at h
              by_cases hc : e.isCaught
              · rw [if_pos hc] at h
                obtain ⟨-, h2⟩ := Prod.ext_iff.mp h
                injection h2 with h2
                subst h2
                right
                refine ⟨e.errorString, ?_, ?_⟩ <;>
                  simp [onReceiveBase, PyDict.set, PyDict.lookup, k1, k2, k3,
                    k4, k5, k6, k7, k8, k9]
              · rw [if_neg hc] at h
                exact absurd (Prod.ext_iff.mp h).2 (by simp)

end Mindstone


namespace Mindstone

/-- C4 witness: a concrete request with an empty item batch on a fresh
worker; the reply binds `feedback` to the empty mapping and leaves
`error` as `None`. -/
theorem on_receive_error_feedback_exclusive_witness :
    ((PyDict.cons (pystr "received_time") (.float 0)
        (.cons (pystr "error") PyVal.none
          (.cons (pystr "feedback") (.dict .nil)
            (.cons (pystr "sent_time") (.float 0) .nil)))).lookup
          (pystr "error") = some PyVal.none ∧
      ∃ fb, (PyDict.cons (pystr "received_time") (.float 0)
        (.cons (pystr "error") PyVal.none
          (.cons (pystr "feedback") (.dict .nil)
            (.cons (pystr "sent_time") (.float 0) .nil)))).lookup
          (pystr "feedback") = some (.dict fb)) ∨
    (∃ msg, (PyDict.cons (pystr "received_time") (.float 0)
        (.cons (pystr "error") PyVal.none
          (.cons (pystr "feedback") (.dict .nil)
            (.cons (pystr "sent_time") (.float 0) .nil)))).lookup
          (pystr "error") = some (.str msg) ∧
      (PyDict.cons (pystr "received_time") (.float 0)
        (.cons (pystr "error") PyVal.none
          (.cons (pystr "feedback") (.dict .nil)
            (.cons (pystr "sent_time") (.float 0) .nil)))).lookup
          (pystr "feedback") = Option.none) :=
  on_receive_error_feedback_exclusive [] ⟨Option.none, []⟩
    (on_receive [] ⟨Option.none, []⟩
      ((encode_transaction (Request.toDict ⟨.float 0, .list .nil⟩)).getD [])
      0 0).1
    ((encode_transaction (Request.toDict ⟨.float 0, .list .nil⟩)).getD [])
    0 0 _
    (Prod.ext_iff.mpr ⟨rfl, by decide⟩)

/-! ### Claim C7 — which request errors the boundary actually catches -/

/-- C7 counterexample: an item with a known method but unknown resource
(`("add", "gadget", {})`) raises `KeyError` from
`method_handlers[method][resource]`, and an `execute` item with no
platform set raises `TypeError` from `key not in None`; neither is in
the caught set `(RuntimeError, RuntimeWarning, ValueError)`, so
`_on_receive` propagates them — no `Response` is produced and the
serving loop does not survive, contrary to the claim. -/
theorem unknown_resource_and_missing_platform_uncaught :
    (on_receive [] ⟨Option.none, []⟩
        ((encode_transaction (Request.toDict ⟨.float 0,
          .list (.cons (.list (.cons (.str (pystr "add"))
            (.cons (.str (pystr "gadget"))
              (.cons (.dict .nil) .nil)))) .nil)⟩)).getD []) 0 0).2 =
      .error .keyError ∧
    (on_receive [] ⟨Option.none, []⟩
        ((encode_transaction (Request.toDict ⟨.float 0,
          .list (.cons (.list (.cons (.str (pystr "execute"))
            (.cons (.str (pystr "component"))
              (.cons (.dict (.cons (pystr "key") (.str (pystr "x"))
                (.cons (pystr "operation") (.str (pystr "go")) .nil)))
                .nil)))) .nil)⟩)).getD []) 0 0).2 =
      .error .typeError ∧
    PyErr.isCaught .keyError = false ∧ PyErr.isCaught .typeError = false :=
  ⟨by decide, by decide, rfl, rfl⟩

end Mindstone

namespace Mindstone

/-- C7 (amended): the domain/state errors the worker raises as
`RuntimeError` are caught at the receive boundary and surfaced as the
reply mapping to the error string, the state is kept and the serving loop
survives (the reply is `.ok`): (a) an unknown method, whose message
names the valid method set `add, remove, execute, get`; (b)
`execute`/`component` on a key absent from the live platform; (c)
`add`/`routine` whose executor names no live component.  (An unknown
resource under a known method, or a missing platform on `execute`,
instead raises `KeyError`/`TypeError`, which the boundary does not
catch — see the counterexample.) -/
theorem boundary_catches_runtime_state_errors :
    (∀ (pt : PlatformTypes) (st : WorkerState) (bs : List Nat)
        (rt s : Nat) (req : Request) (ms rs : PyStr) (kd : PyDict),
      decode_request bs = .ok req →
      req.items = .list (.cons (.list (.cons (.str ms)
        (.cons (.str rs) (.cons (.dict kd) .nil)))) .nil) →
      dictLookup method_handlers ms = Option.none →
      on_receive pt st bs rt s =
        (st, .ok ((onReceiveBase rt).set (pystr "error")
            (.str (PyErr.errorString
              (.runtimeError (invalidMethodMsg (.str ms)))))
          |>.set (pystr "sent_time") (.float s)))) ∧
    joinComma (method_handlers.map Prod.fst) =
      pystr "add, remove, execute, get" ∧
    (∀ (pt : PlatformTypes) (st : WorkerState) (bs : List Nat)
        (rt s : Nat) (req : Request) (kd : PyDict) (p : Platform)
        (k op : PyVal),
      decode_request bs = .ok req →
      req.items = .list (.cons (.list (.cons (.str (pystr "execute"))
        (.cons (.str (pystr "component")) (.cons (.dict kd) .nil)))) .nil) →
      st.platform = some p →
      kwOnly kd [pystr "key", pystr "operation", pystr "kwargs"] = true →
      kd.lookup (pystr "key") = some k →
      kd.lookup (pystr "operation") = some op →
      k.hashable = true →
      dictLookup p.comps k = Option.none →
      on_receive pt st bs rt s =
        (st, .ok ((onReceiveBase rt).set (pystr "error")
            (.str (PyErr.errorString
              (.runtimeError (componentNotFoundMsg k))))
          |>.set (pystr "sent_time") (.float s)))) ∧
    (∀ (pt : PlatformTypes) (st : WorkerState) (bs : List Nat)
        (rt s : Nat) (req : Request) (kd : PyDict) (p : Platform)
        (k i ex op kws : PyVal),
      decode_request bs = .ok req →
      req.items = .list (.cons (.list (.cons (.str (pystr "add"))
        (.cons (.str (pystr "routine")) (.cons (.dict kd) .nil)))) .nil) →
      st.platform = some p →
      kwOnly kd [pystr "key", pystr "interval", pystr "executor",
        pystr "operation", pystr "kwargs"] = true →
      kd.lookup (pystr "key") = some k →
      kd.lookup (pystr "interval") = some i →
      kd.lookup (pystr "executor") = some ex →
      kd.lookup (pystr "operation") = some op →
      kd.lookup (pystr "kwargs") = some kws →
      ex.hashable = true →
      p.comps.any (fun kv => kv.1 == ex) = false →
      on_receive pt st bs rt s =
        (st, .ok ((onReceiveBase rt).set (pystr "error")
            (.str (PyErr.errorString
              (.runtimeError (componentNotFoundMsg ex))))
          |>.set (pystr "sent_time") (.float s)))) := by
  refine ⟨?_, by decide, ?_, ?_⟩
  · intro pt st bs rt s req ms rs kd hdec hitems hm
    have hpr : process_request_items pt st req.items =
        (st, .error (.runtimeError (invalidMethodMsg (.str ms)))) := by
      rw [hitems]
      dsimp only [process_request_items, iterItems, PyList.toList,
        processItemList, processOne, unpack3]
      rw [hm]
    unfold on_receive
    rw [hdec]
    dsimp only
    rw [hpr]
    dsimp only [PyErr.isCaught]
    rw [if_pos rfl]
  · intro pt st bs rt s req kd p k op hdec hitems hp hkw hk hop hh hmiss
    have ht1 : dictLookup method_handlers (pystr "execute") =
        some [(pystr "component", HKind.executeComponent)] := by decide
    have ht2 : dictLookup [(pystr "component", HKind.executeComponent)]
        (pystr "component") = some HKind.executeComponent := by decide
    have hpr : process_request_items pt st req.items =
        (st, .error (.runtimeError (componentNotFoundMsg k))) := by
      rw [hitems]
      dsimp only [process_request_items, iterItems, PyList.toList,
        processItemList, processOne, unpack3]
      rw [ht1]
      dsimp only
      rw [ht2]
      dsimp only [call_handler]
      rw [hkw, if_neg (by simp)]
      rw [hk, hop]
      dsimp only
      rw [hp]
      dsimp only
      rw [hh, if_neg (by simp)]
      rw [hmiss]
    unfold on_receive
    rw [hdec]
    dsimp only
    rw [hpr]
    dsimp only [PyErr.isCaught]
    rw [if_pos rfl]
  · intro pt st bs rt s req kd p k i ex op kws hdec hitems hp hkw hk hi
      hex hop hkws hexh hany
    have ht1 : dictLookup method_handlers (pystr "add") =
        some [(pystr "component", HKind.addComponent),
          (pystr "routine", HKind.addRoutine),
          (pystr "platform", HKind.addPlatform)] := by decide
    have ht2 : dictLookup [(pystr "component", HKind.addComponent),
          (pystr "routine", HKind.addRoutine),
          (pystr "platform", HKind.addPlatform)] (pystr "routine") =
        some HKind.addRoutine := by decide
    have hpr : process_request_items pt st req.items =
        (st, .error (.runtimeError (componentNotFoundMsg ex))) := by
      rw [hitems]
      dsimp only [process_request_items, iterItems, PyList.toList,
        processItemList, processOne, unpack3]
      rw [ht1]
      dsimp only
      rw [ht2]
      dsimp only [call_handler]
      rw [hkw, if_neg (by simp)]
      rw [hk, hi, hex, hop, hkws]
      dsimp only
      rw [hp]
      dsimp only
      rw [hexh, if_neg (by simp)]
      rw [hany, if_pos (by simp)]
    unfold on_receive
    rw [hdec]
    dsimp only
    rw [hpr]
    dsimp only [PyErr.isCaught]
    rw [if_pos rfl]

end Mindstone

namespace Mindstone

/-- C7 amended witness: three concrete requests — an unknown method
`frob`, an `execute`/`component` on a key the (empty) platform does not
hold, and an `add`/`routine` whose executor names no live component —
each answered with a caught `RuntimeError` reply. -/
theorem boundary_catches_runtime_state_errors_witness :
    on_receive [] ⟨Option.none, []⟩
        ((encode_transaction (Request.toDict ⟨.float 0,
          .list (.cons (.list (.cons (.str (pystr "frob"))
            (.cons (.str (pystr "component"))
              (.cons (.dict .nil) .nil)))) .nil)⟩)).getD []) 0 0 =
      (⟨Option.none, []⟩, .ok ((onReceiveBase 0).set (pystr "error")
          (.str (PyErr.errorString
            (.runtimeError (invalidMethodMsg (.str (pystr "frob"))))))
        |>.set (pystr "sent_time") (.float 0))) ∧
    on_receive [] ⟨some ⟨[], []⟩, []⟩
        ((encode_transaction (Request.toDict ⟨.float 0,
          .list (.cons (.list (.cons (.str (pystr "execute"))
            (.cons (.str (pystr "component"))
              (.cons (.dict (.cons (pystr "key") (.str (pystr "x"))
                (.cons (pystr "operation") (.str (pystr "go")) .nil)))
                .nil)))) .nil)⟩)).getD []) 0 0 =
      (⟨some ⟨[], []⟩, []⟩, .ok ((onReceiveBase 0).set (pystr "error")
          (.str (PyErr.errorString
            (.runtimeError (componentNotFoundMsg (.str (pystr "x"))))))
        |>.set (pystr "sent_time") (.float 0))) ∧
    on_receive [] ⟨some ⟨[], []⟩, []⟩
        ((encode_transaction (Request.toDict ⟨.float 0,
          .list (.cons (.list (.cons (.str (pystr "add"))
            (.cons (.str (pystr "routine"))
              (.cons (.dict (.cons (pystr "key") (.str (pystr "r"))
                (.cons (pystr "interval") (.float 1)
                  (.cons (pystr "executor") (.str (pystr "x"))
                    (.cons (pystr "operation") (.str (pystr "go"))
                      (.cons (pystr "kwargs") (.dict .nil) .nil))))))
                .nil)))) .nil)⟩)).getD []) 0 0 =
      (⟨some ⟨[], []⟩, []⟩, .ok ((onReceiveBase 0).set (pystr "error")
          (.str (PyErr.errorString
            (.runtimeError (componentNotFoundMsg (.str (pystr "x"))))))
        |>.set (pystr "sent_time") (.float 0))) :=
  ⟨boundary_catches_runtime_state_errors.1 [] ⟨Option.none, []⟩ _ 0 0
      ⟨.float 0, .list (.cons (.list (.cons (.str (pystr "frob"))
        (.cons (.str (pystr "component"))
          (.cons (.dict .nil) .nil)))) .nil)⟩
      (pystr "frob") (pystr "component") .nil rfl rfl (by decide),
   boundary_catches_runtime_state_errors.2.2.1 [] ⟨some ⟨[], []⟩, []⟩ _ 0 0
      ⟨.float 0, .list (.cons (.list (.cons (.str (pystr "execute"))
        (.cons (.str (pystr "component"))
          (.cons (.dict (.cons (pystr "key") (.str (pystr "x"))
            (.cons (pystr "operation") (.str (pystr "go")) .nil)))
            .nil)))) .nil)⟩
      (.cons (pystr "key") (.str (pystr "x"))
        (.cons (pystr "operation") (.str (pystr "go")) .nil))
      ⟨[], []⟩ (.str (pystr "x")) (.str (pystr "go"))
      rfl rfl rfl (by decide) rfl rfl rfl rfl,
   boundary_catches_runtime_state_errors.2.2.2 [] ⟨some ⟨[], []⟩, []⟩ _ 0 0
      ⟨.float 0, .list (.cons (.list (.cons (.str (pystr "add"))
        (.cons (.str (pystr "routine"))
          (.cons (.dict (.cons (pystr "key") (.str (pystr "r"))
            (.cons (pystr "interval") (.float 1)
              (.cons (pystr "executor") (.str (pystr "x"))
                (.cons (pystr "operation") (.str (pystr "go"))
                  (.cons (pystr "kwargs") (.dict .nil) .nil))))))
            .nil)))) .nil)⟩
      (.cons (pystr "key") (.str (pystr "r"))
        (.cons (pystr "interval") (.float 1)
          (.cons (pystr "executor") (.str (pystr "x"))
            (.cons (pystr "operation") (.str (pystr "go"))
              (.cons (pystr "kwargs") (.dict .nil) .nil)))))
      ⟨[], []⟩ (.str (pystr "r")) (.float 1) (.str (pystr "x"))
      (.str (pystr "go")) (.dict .nil)
      rfl rfl rfl (by decide) rfl rfl rfl rfl rfl rfl rfl⟩

end Mindstone


namespace Mindstone

/-! ### Resolution-engine helper lemmas -/

theorem bind_error {ε α β : Type} (e : ε) (f : α → Except ε β) :
    ((Except.error e : Except ε α) >>= f) = .error e := rfl

theorem PyDict.update_cons_of_not_mem :
    ∀ (tl : PyDict) (k : PyStr) (v : PyVal) (d : PyDict),
      k ∉ tl.keys → (PyDict.cons k v d).update tl = .cons k v (d.update tl)
  | .nil, _, _, _, _ => rfl
  | .cons k2 v2 tl2, k, v, d, h => by
      simp only [PyDict.keys, List.mem_cons, not_or] at h
      rw [PyDict.update, PyDict.set, if_neg h.1,
        PyDict.update_cons_of_not_mem tl2 k v (d.set k2 v2) h.2,
        PyDict.update]

theorem PyDict.update_nil :
    ∀ (d : PyDict), d.keys.Nodup → PyDict.nil.update d = d
  | .nil, _ => rfl
  | .cons k v tl, h => by
      simp only [PyDict.keys, List.nodup_cons] at h
      rw [PyDict.update, PyDict.set,
        PyDict.update_cons_of_not_mem tl k v .nil h.1,
        PyDict.update_nil tl h.2]

theorem resolve_loop_step (net : GateNetwork) (st : ResolveState) (n : Nat) :
    resolve_loop net st (n + 1) =
      (do
        let st2 ← epoch_step net st
        if st2.current.isEmpty ∨ net.max_epochs = some st2.epoch_count then
          .ok (some (st2.resolved, st2.epoch_count))
        else resolve_loop net st2 n) := rfl

theorem epoch_step_count (net : GateNetwork) (st st2 : ResolveState)
    (h : epoch_step net st = .ok st2) :
    st2.epoch_count = st.epoch_count + 1 := by
  unfold epoch_step at h
  cases hf : st.current.foldlM (processEntry net st.current)
      (⟨st.current, st.unsatisfied, st.resolved, []⟩ : EpochState) with
  | error e => rw [hf, bind_error] at h; exact absurd h (by simp)
  | ok ls =>
      rw [hf] at h
      simp only [bind_ok] at h
      cases he : evalToBE net ls.to_be_evaluated with
      | error e => rw [he, bind_error] at h; exact absurd h (by simp)
      | ok nr =>
          rw [he] at h
          simp only [bind_ok] at h
          injection h with h
          rw [← h]

end Mindstone

namespace Mindstone

/-! ### Claim C1 — the unconditional chain resolves to C alone -/

/-- C1: on the chain `a`→`b`→`c` (no conditional edges), running from
`a` seeds the generation with A's result; epoch 1 fires `b` on A's
propagated mapping, epoch 2 fires `c` on B's propagated mapping, and
epoch 3 retires `c` (no successors) into `resolved` — one generation
per link, after which `resolved` holds exactly `c`'s result
`pC (pB (pA feed))` and nothing else, at any sufficient fuel. -/
theorem chain_resolves_c_only (pA pB pC : PyVal → PyVal) (feed : PyVal)
    (net : GateNetwork) (la lb : PyDict) (fuel : Nat)
    (hnet : chainNet pA pB pC = .ok net)
    (hA : pA feed = .dict la) (hla : la.keys.Nodup)
    (hB : pB (.dict la) = .dict lb) (hlb : lb.keys.Nodup) :
    resolve_all net "a" feed (fuel + 3) =
      .ok (some ([("c", pC (.dict lb))], 3)) := by
  have hlit : chainNet pA pB pC = .ok
      ⟨[("a", ⟨["b"], pA⟩), ("b", ⟨["c"], pB⟩), ("c", ⟨[], pC⟩)],
        [], Option.none⟩ := rfl
  rw [hlit] at hnet
  injection hnet with hnet
  subst hnet
  have e1 : epoch_step
      ⟨[("a", ⟨["b"], pA⟩), ("b", ⟨["c"], pB⟩), ("c", ⟨[], pC⟩)],
        [], Option.none⟩
      ⟨[("a", PyVal.dict la)], [], [], 0⟩ =
      .ok ⟨[("b", pB (.dict (PyDict.nil.update la)))], [], [], 1⟩ := rfl
  rw [PyDict.update_nil la hla, hB] at e1
  have e2 : epoch_step
      ⟨[("a", ⟨["b"], pA⟩), ("b", ⟨["c"], pB⟩), ("c", ⟨[], pC⟩)],
        [], Option.none⟩
      ⟨[("b", PyVal.dict lb)], [], [], 1⟩ =
      .ok ⟨[("c", pC (.dict (PyDict.nil.update lb)))], [], [], 2⟩ := rfl
  rw [PyDict.update_nil lb hlb] at e2
  have e3 : epoch_step
      ⟨[("a", ⟨["b"], pA⟩), ("b", ⟨["c"], pB⟩), ("c", ⟨[], pC⟩)],
        [], Option.none⟩
      ⟨[("c", pC (PyVal.dict lb))], [], [], 2⟩ =
      .ok ⟨[], [], [("c", pC (.dict lb))], 3⟩ := rfl
  have hstart : resolve_all
      (⟨[("a", ⟨["b"], pA⟩), ("b", ⟨["c"], pB⟩), ("c", ⟨[], pC⟩)],
        [], Option.none⟩ : GateNetwork) "a" feed (fuel + 3) =
      resolve_loop
        ⟨[("a", ⟨["b"], pA⟩), ("b", ⟨["c"], pB⟩), ("c", ⟨[], pC⟩)],
          [], Option.none⟩
        ⟨[("a", pA feed)], [], [], 0⟩ (fuel + 3) := rfl
  rw [hstart, hA, show fuel + 3 = (fuel + 2) + 1 from rfl,
    resolve_loop_step]
  simp only [e1, bind_ok]
  rw [if_neg (by simp), show fuel + 2 = (fuel + 1) + 1 from rfl,
    resolve_loop_step]
  simp only [e2, bind_ok]
  rw [if_neg (by simp), resolve_loop_step]
  simp only [e3, bind_ok]
  simp

end Mindstone

namespace Mindstone

/-- C1 witness: a concrete chain whose gates return
`{"x": 1}`, `{"y": 2}` and `7`; the run resolves to
`{"c": 7}` after three epochs. -/
theorem chain_resolves_c_only_witness :
    resolve_all
      ⟨[("a", ⟨["b"], fun _ => PyVal.dict (.cons (pystr "x") (.int 1) .nil)⟩),
        ("b", ⟨["c"], fun _ => PyVal.dict (.cons (pystr "y") (.int 2) .nil)⟩),
        ("c", ⟨[], fun _ => PyVal.int 7⟩)], [], Option.none⟩
      "a" PyVal.none 3 =
      .ok (some ([("c", PyVal.int 7)], 3)) :=
  chain_resolves_c_only
    (fun _ => PyVal.dict (.cons (pystr "x") (.int 1) .nil))
    (fun _ => PyVal.dict (.cons (pystr "y") (.int 2) .nil))
    (fun _ => PyVal.int 7) PyVal.none
    ⟨[("a", ⟨["b"], fun _ => PyVal.dict (.cons (pystr "x") (.int 1) .nil)⟩),
      ("b", ⟨["c"], fun _ => PyVal.dict (.cons (pystr "y") (.int 2) .nil)⟩),
      ("c", ⟨[], fun _ => PyVal.int 7⟩)], [], Option.none⟩
    (.cons (pystr "x") (.int 1) .nil) (.cons (pystr "y") (.int 2) .nil) 0
    rfl rfl (by decide) rfl (by decide)

end Mindstone

namespace Mindstone

/-! ### Claim C5 — false conditional with fallback resolves C, never B -/

/-- C5: on the triangle built by `add_conditional_edge("a","b",...,
fallback_tag="c")`, when the predicate evaluates to `false` at the
registered path of A's result, epoch 1 skips `b`, fires the fallback
`c` on A's propagated mapping, and epoch 2 retires `c`; the outcome
holds for every procedure `pB` and never mentions it — `b` is never
invoked. -/
theorem conditional_false_fallback_resolves_c (pA pB pC : PyVal → PyVal)
    (path : PyStr) (ev : Evaluator) (target : PyVal) (feed v : PyVal)
    (net : GateNetwork) (la : PyDict) (fuel : Nat)
    (hnet : condNet pA pB pC path ev target = .ok net)
    (hA : pA feed = .dict la) (hla : la.keys.Nodup)
    (hv : get_nested path (.dict la) = .ok v)
    (hev : ev v target = false) :
    resolve_all net "a" feed (fuel + 2) =
      .ok (some ([("c", pC (.dict la))], 2)) := by
  have hlit : condNet pA pB pC path ev target = .ok
      ⟨[("a", ⟨["b", "c"], pA⟩), ("b", ⟨[], pB⟩), ("c", ⟨[], pC⟩)],
        [(("a", "b"), (path, ev, target)),
         (("a", "c"), (path, fun a b => !ev a b, target))],
        Option.none⟩ := rfl
  rw [hlit] at hnet
  injection hnet with hnet
  subst hnet
  have pc1 : processChild
      ⟨[("a", ⟨["b", "c"], pA⟩), ("b", ⟨[], pB⟩), ("c", ⟨[], pC⟩)],
        [(("a", "b"), (path, ev, target)),
         (("a", "c"), (path, fun a b => !ev a b, target))],
        Option.none⟩
      [("a", PyVal.dict la)] "a" (PyVal.dict la)
      ⟨[("a", PyVal.dict la)], [], [], []⟩ "b" =
      .ok ⟨[("a", PyVal.dict la)], [], [], []⟩ := by
    have h1 : processChild
        ⟨[("a", ⟨["b", "c"], pA⟩), ("b", ⟨[], pB⟩), ("c", ⟨[], pC⟩)],
          [(("a", "b"), (path, ev, target)),
           (("a", "c"), (path, fun a b => !ev a b, target))],
          Option.none⟩
        [("a", PyVal.dict la)] "a" (PyVal.dict la)
        ⟨[("a", PyVal.dict la)], [], [], []⟩ "b" =
        (get_nested path (PyVal.dict la)) >>= (fun v2 =>
          if ev v2 target then
            eligible [("a", PyVal.dict la)] "a" (PyVal.dict la)
              ⟨[("a", PyVal.dict la)], [], [], []⟩ "b" ["a"]
          else .ok ⟨[("a", PyVal.dict la)], [], [], []⟩) := rfl
    rw [h1, hv]
    simp only [bind_ok]
    rw [hev]
    simp
  have pc2 : processChild
      ⟨[("a", ⟨["b", "c"], pA⟩), ("b", ⟨[], pB⟩), ("c", ⟨[], pC⟩)],
        [(("a", "b"), (path, ev, target)),
         (("a", "c"), (path, fun a b => !ev a b, target))],
        Option.none⟩
      [("a", PyVal.dict la)] "a" (PyVal.dict la)
      ⟨[("a", PyVal.dict la)], [], [], []⟩ "c" =
      .ok ⟨[], [], [], [("c", PyDict.nil.update la)]⟩ := by
    have h1 : processChild
        ⟨[("a", ⟨["b", "c"], pA⟩), ("b", ⟨[], pB⟩), ("c", ⟨[], pC⟩)],
          [(("a", "b"), (path, ev, target)),
           (("a", "c"), (path, fun a b => !ev a b, target))],
          Option.none⟩
        [("a", PyVal.dict la)] "a" (PyVal.dict la)
        ⟨[("a", PyVal.dict la)], [], [], []⟩ "c" =
        (get_nested path (PyVal.dict la)) >>= (fun v2 =>
          if (!ev v2 target) = true then
            eligible [("a", PyVal.dict la)] "a" (PyVal.dict la)
              ⟨[("a", PyVal.dict la)], [], [], []⟩ "c" ["a"]
          else .ok ⟨[("a", PyVal.dict la)], [], [], []⟩) := rfl
    rw [h1, hv]
    simp only [bind_ok]
    rw [hev]
    simp only [Bool.not_false]
    rw [if_pos trivial]
    rfl
  have hpe : processEntry
      ⟨[("a", ⟨["b", "c"], pA⟩), ("b", ⟨[], pB⟩), ("c", ⟨[], pC⟩)],
        [(("a", "b"), (path, ev, target)),
         (("a", "c"), (path, fun a b => !ev a b, target))],
        Option.none⟩
      [("a", PyVal.dict la)]
      ⟨[("a", PyVal.dict la)], [], [], []⟩ ("a", PyVal.dict la) =
      .ok ⟨[], [], [], [("c", PyDict.nil.update la)]⟩ := by
    have h1 : processEntry
        ⟨[("a", ⟨["b", "c"], pA⟩), ("b", ⟨[], pB⟩), ("c", ⟨[], pC⟩)],
          [(("a", "b"), (path, ev, target)),
           (("a", "c"), (path, fun a b => !ev a b, target))],
          Option.none⟩
        [("a", PyVal.dict la)]
        ⟨[("a", PyVal.dict la)], [], [], []⟩ ("a", PyVal.dict la) =
        (processChild
          ⟨[("a", ⟨["b", "c"], pA⟩), ("b", ⟨[], pB⟩), ("c", ⟨[], pC⟩)],
            [(("a", "b"), (path, ev, target)),
             (("a", "c"), (path, fun a b => !ev a b, target))],
            Option.none⟩
          [("a", PyVal.dict la)] "a" (PyVal.dict la)
          ⟨[("a", PyVal.dict la)], [], [], []⟩ "b") >>= (fun s1 =>
        (processChild
          ⟨[("a", ⟨["b", "c"], pA⟩), ("b", ⟨[], pB⟩), ("c", ⟨[], pC⟩)],
            [(("a", "b"), (path, ev, target)),
             (("a", "c"), (path, fun a b => !ev a b, target))],
            Option.none⟩
          [("a", PyVal.dict la)] "a" (PyVal.dict la) s1 "c") >>=
          (fun s2 => Except.ok s2)) := rfl
    simp only [h1, pc1, pc2, bind_ok]
  have e1 : epoch_step
      ⟨[("a", ⟨["b", "c"], pA⟩), ("b", ⟨[], pB⟩), ("c", ⟨[], pC⟩)],
        [(("a", "b"), (path, ev, target)),
         (("a", "c"), (path, fun a b => !ev a b, target))],
        Option.none⟩
      ⟨[("a", PyVal.dict la)], [], [], 0⟩ =
      .ok ⟨[("c", pC (PyVal.dict (PyDict.nil.update la)))], [], [], 1⟩ := by
    have h1 : epoch_step
        ⟨[("a", ⟨["b", "c"], pA⟩), ("b", ⟨[], pB⟩), ("c", ⟨[], pC⟩)],
          [(("a", "b"), (path, ev, target)),
           (("a", "c"), (path, fun a b => !ev a b, target))],
          Option.none⟩
        ⟨[("a", PyVal.dict la)], [], [], 0⟩ =
        ((processEntry
          ⟨[("a", ⟨["b", "c"], pA⟩), ("b", ⟨[], pB⟩), ("c", ⟨[], pC⟩)],
            [(("a", "b"), (path, ev, target)),
             (("a", "c"), (path, fun a b => !ev a b, target))],
            Option.none⟩
          [("a", PyVal.dict la)]
          ⟨[("a", PyVal.dict la)], [], [], []⟩ ("a", PyVal.dict la)) >>=
          (fun s => Except.ok s)) >>= (fun ls =>
        (evalToBE
          ⟨[("a", ⟨["b", "c"], pA⟩), ("b", ⟨[], pB⟩), ("c", ⟨[], pC⟩)],
            [(("a", "b"), (path, ev, target)),
             (("a", "c"), (path, fun a b => !ev a b, target))],
            Option.none⟩
          ls.to_be_evaluated) >>= (fun nr =>
          Except.ok (⟨dictUpdate ls.current nr, ls.unsatisfied,
            ls.resolved, 0 + 1⟩ : ResolveState))) := rfl
    simp only [h1, hpe, bind_ok]
    rfl
  rw [PyDict.update_nil la hla] at e1
  have e2 : epoch_step
      ⟨[("a", ⟨["b", "c"], pA⟩), ("b", ⟨[], pB⟩), ("c", ⟨[], pC⟩)],
        [(("a", "b"), (path, ev, target)),
         (("a", "c"), (path, fun a b => !ev a b, target))],
        Option.none⟩
      ⟨[("c", pC (PyVal.dict la))], [], [], 1⟩ =
      .ok ⟨[], [], [("c", pC (.dict la))], 2⟩ := rfl
  have hstart : resolve_all
      (⟨[("a", ⟨["b", "c"], pA⟩), ("b", ⟨[], pB⟩), ("c", ⟨[], pC⟩)],
        [(("a", "b"), (path, ev, target)),
         (("a", "c"), (path, fun a b => !ev a b, target))],
        Option.none⟩ : GateNetwork) "a" feed (fuel + 2) =
      resolve_loop
        ⟨[("a", ⟨["b", "c"], pA⟩), ("b", ⟨[], pB⟩), ("c", ⟨[], pC⟩)],
          [(("a", "b"), (path, ev, target)),
           (("a", "c"), (path, fun a b => !ev a b, target))],
          Option.none⟩
        ⟨[("a", pA feed)], [], [], 0⟩ (fuel + 2) := rfl
  rw [hstart, hA, show fuel + 2 = (fuel + 1) + 1 from rfl, resolve_loop_step]
  simp only [e1, bind_ok]
  rw [if_neg (by simp), resolve_loop_step]
  simp only [e2, bind_ok]
  simp

end Mindstone

namespace Mindstone

/-- C5 witness: a concrete triangle — A returns `{"k": 0}`, the
conditional `a`→`b` tests `result["k"] == 1` (false), so the fallback
`a`→`c` fires and the run resolves to `{"c": 9}` after two epochs,
with `b`'s procedure nowhere consulted. -/
theorem conditional_false_fallback_resolves_c_witness :
    resolve_all
      ⟨[("a", ⟨["b", "c"],
          fun _ => PyVal.dict (.cons (pystr "k") (.int 0) .nil)⟩),
        ("b", ⟨[], fun _ => PyVal.none⟩),
        ("c", ⟨[], fun _ => PyVal.int 9⟩)],
       [(("a", "b"), (pystr "k", fun a b => a == b, PyVal.int 1)),
        (("a", "c"), (pystr "k", fun a b => !(a == b), PyVal.int 1))],
       Option.none⟩
      "a" PyVal.none 2 =
      .ok (some ([("c", PyVal.int 9)], 2)) :=
  conditional_false_fallback_resolves_c
    (fun _ => PyVal.dict (.cons (pystr "k") (.int 0) .nil))
    (fun _ => PyVal.none) (fun _ => PyVal.int 9)
    (pystr "k") (fun a b => a == b) (PyVal.int 1) PyVal.none (PyVal.int 0)
    ⟨[("a", ⟨["b", "c"],
        fun _ => PyVal.dict (.cons (pystr "k") (.int 0) .nil)⟩),
      ("b", ⟨[], fun _ => PyVal.none⟩),
      ("c", ⟨[], fun _ => PyVal.int 9⟩)],
     [(("a", "b"), (pystr "k", fun a b => a == b, PyVal.int 1)),
      (("a", "c"), (pystr "k", fun a b => !(a == b), PyVal.int 1))],
     Option.none⟩
    (.cons (pystr "k") (.int 0) .nil) 0
    rfl rfl (by decide) rfl rfl

end Mindstone

namespace Mindstone

/-! ### Claim C6 — the epoch ceiling and the empty-generation exit -/

/-- C6: (1) after `set_max_epochs(1)`, any run whose first epoch
completes returns right after that epoch — epoch count exactly 1 and
the same answer at every fuel, even on a self-referencing conditional
loop whose `current` never empties; (2) in general the loop returns
`resolved` as soon as an epoch leaves `current` empty or brings the
epoch count to the configured ceiling. -/
theorem epoch_ceiling_one_terminates :
    (∀ (net net1 : GateNetwork) (s : String) (feed r0 : PyVal)
        (fuel : Nat) (st2 : ResolveState),
      set_max_epochs net 1 = .ok net1 →
      run_gate net1 s feed = .ok r0 →
      epoch_step net1 ⟨[(s, r0)], [], [], 0⟩ = .ok st2 →
      resolve_all net1 s feed (fuel + 1) = .ok (some (st2.resolved, 1))) ∧
    (∀ (net : GateNetwork) (st st2 : ResolveState) (fuel : Nat),
      epoch_step net st = .ok st2 →
      st2.current = [] ∨ net.max_epochs = some st2.epoch_count →
      resolve_loop net st (fuel + 1) =
        .ok (some (st2.resolved, st2.epoch_count))) := by
  constructor
  · intro net net1 s feed r0 fuel st2 hset hrun hstep
    have hm : net1.max_epochs = some 1 := by
      unfold set_max_epochs at hset
      rw [if_neg (by omega)] at hset
      injection hset with hset
      rw [← hset]
    have hcnt := epoch_step_count net1 ⟨[(s, r0)], [], [], 0⟩ st2 hstep
    have hra : resolve_all net1 s feed (fuel + 1) =
        resolve_loop net1 ⟨[(s, r0)], [], [], 0⟩ (fuel + 1) := by
      unfold resolve_all
      rw [hrun]
      simp only [bind_ok]
    rw [hra, resolve_loop_step]
    simp only [hstep, bind_ok]
    rw [if_pos (Or.inr (by rw [hm, hcnt]))]
    rw [hcnt]
  · intro net st st2 fuel hstep hterm
    rw [resolve_loop_step]
    simp only [hstep, bind_ok]
    rcases hterm with h1 | h2
    · rw [if_pos (Or.inl (by simp [h1]))]
    · rw [if_pos (Or.inr h2)]

end Mindstone

namespace Mindstone

/-- C6 witness: a two-gate conditional loop `a`→`b`→`a` whose
always-true predicates keep a gate live every epoch; with
`set_max_epochs(1)` the run returns after exactly one epoch (empty
`resolved`, epoch count 1), and the loop exit also fires directly on
the ceiling condition. -/
theorem epoch_ceiling_one_terminates_witness :
    resolve_all
      ⟨[("a", ⟨["b"],
          fun _ => PyVal.dict (.cons (pystr "k") (.int 0) .nil)⟩),
        ("b", ⟨["a"],
          fun _ => PyVal.dict (.cons (pystr "k") (.int 0) .nil)⟩)],
       [(("a", "b"), (pystr "k", fun _ _ => true, PyVal.none)),
        (("b", "a"), (pystr "k", fun _ _ => true, PyVal.none))],
       some 1⟩
      "a" PyVal.none 1 = .ok (some ([], 1)) ∧
    resolve_loop
      ⟨[("a", ⟨["b"],
          fun _ => PyVal.dict (.cons (pystr "k") (.int 0) .nil)⟩),
        ("b", ⟨["a"],
          fun _ => PyVal.dict (.cons (pystr "k") (.int 0) .nil)⟩)],
       [(("a", "b"), (pystr "k", fun _ _ => true, PyVal.none)),
        (("b", "a"), (pystr "k", fun _ _ => true, PyVal.none))],
       some 1⟩
      ⟨[("a", PyVal.dict (.cons (pystr "k") (.int 0) .nil))], [], [], 0⟩ 1 =
      .ok (some ([], 1)) :=
  ⟨epoch_ceiling_one_terminates.1
      ⟨[("a", ⟨["b"],
          fun _ => PyVal.dict (.cons (pystr "k") (.int 0) .nil)⟩),
        ("b", ⟨["a"],
          fun _ => PyVal.dict (.cons (pystr "k") (.int 0) .nil)⟩)],
       [(("a", "b"), (pystr "k", fun _ _ => true, PyVal.none)),
        (("b", "a"), (pystr "k", fun _ _ => true, PyVal.none))],
       Option.none⟩
      ⟨[("a", ⟨["b"],
          fun _ => PyVal.dict (.cons (pystr "k") (.int 0) .nil)⟩),
        ("b", ⟨["a"],
          fun _ => PyVal.dict (.cons (pystr "k") (.int 0) .nil)⟩)],
       [(("a", "b"), (pystr "k", fun _ _ => true, PyVal.none)),
        (("b", "a"), (pystr "k", fun _ _ => true, PyVal.none))],
       some 1⟩
      "a" PyVal.none
      (PyVal.dict (.cons (pystr "k") (.int 0) .nil)) 0
      ⟨[("b", PyVal.dict (.cons (pystr "k") (.int 0) .nil))], [], [], 1⟩
      rfl rfl rfl,
   epoch_ceiling_one_terminates.2
      ⟨[("a", ⟨["b"],
          fun _ => PyVal.dict (.cons (pystr "k") (.int 0) .nil)⟩),
        ("b", ⟨["a"],
          fun _ => PyVal.dict (.cons (pystr "k") (.int 0) .nil)⟩)],
       [(("a", "b"), (pystr "k", fun _ _ => true, PyVal.none)),
        (("b", "a"), (pystr "k", fun _ _ => true, PyVal.none))],
       some 1⟩
      ⟨[("a", PyVal.dict (.cons (pystr "k") (.int 0) .nil))], [], [], 0⟩
      ⟨[("b", PyVal.dict (.cons (pystr "k") (.int 0) .nil))], [], [], 1⟩
      0 rfl (Or.inr rfl)⟩

end Mindstone
